import Mathlib

/-!
Verification of the `seed` Cloud Foundry CLI plugin (`seed.go`).

The program is embedded shallowly: every remote interaction performed through
the CLI connection is recorded in a trace of `Call`s, and the remote platform
(together with the local filesystem and the `git` binary) is modelled as a
pure oracle `Env`.  Each Go function of `seed.go` becomes a Lean function
returning the trace of calls it issues together with an `Outcome`
(`ok` / `err` mirror Go's `error` returns; `crash` models a Go runtime panic,
e.g. an out-of-range slice index).
-/

/-- One interaction with the outside world.
`cli` is an invocation of `CliCommand(args...)` (state-changing or targeting),
`curl` an invocation of `CliCommandWithoutTerminalOutput("curl", path)`
(read-only structured fetch), and `gitClone repoURL dir` the local
`exec.Command(git, "clone", repoURL, dir)` subprocess. -/
inductive Call where
  | cli : List String → Call
  | curl : String → Call
  | gitClone : String → String → Call
  deriving DecidableEq, Repr

/-- Result of running an embedded function: `ok` and `err` mirror Go's
`(value, error)` returns; `crash` models a runtime panic (index out of
range), which aborts the process without returning an error value. -/
inductive Outcome (α : Type) where
  | ok : α → Outcome α
  | err : String → Outcome α
  | crash : Outcome α
  deriving DecidableEq, Repr

/-- Modelled from the spec: the `ServiceBroker` descriptor of the manifest
data model (its struct declaration is not in `seed.go`); fields as used by
`createServiceBroker` / `deleteServiceBroker` and the `Url` assignment. -/
structure ServiceBroker where
  name : String
  username : String
  password : String
  url : String
  deriving DecidableEq, Repr

/-- Modelled from the spec: the `Service` entry of the manifest data model
(struct declaration not in `seed.go`); fields as used by `createServices`,
`deleteServices`, `enableServiceAccess` and `disableServiceAccess`. -/
structure Service where
  name : String
  service : String
  plan : String
  org : String
  deriving DecidableEq, Repr

/-- Modelled from the spec: the application entry of the manifest data model
(Go struct `deployApp`, declaration not in `seed.go`); fields as used by
`deployApp`, `createApps`, `setAppAsService` and `deleteAppAsService`. -/
structure deployApp where
  name : String
  repo : String
  path : String
  disk : String
  memory : String
  instances : String
  hostname : String
  domain : String
  buildpack : String
  manifest : String
  serviceBroker : ServiceBroker
  serviceAccess : List Service
  deriving DecidableEq, Repr

/-- Modelled from the spec: a manifest `Space` (struct declaration not in
`seed.go`): name, applications and services, scoped to one organization. -/
structure Space where
  name : String
  apps : List deployApp
  services : List Service
  deriving DecidableEq, Repr

/-- Modelled from the spec: a manifest `Organization` (struct declaration not
in `seed.go`): name and ordered spaces. -/
structure Organization where
  name : String
  spaces : List Space
  deriving DecidableEq, Repr

/-- Modelled from the spec: the manifest root (struct declaration not in
`seed.go`): an ordered sequence of organizations. -/
structure SeederManifest where
  organizations : List Organization
  deriving DecidableEq, Repr

/-- Alias for the application record, usable inside the `SeedRepo`
namespace where the plain name would be shadowed by the method
`SeedRepo.deployApp`. -/
abbrev App := deployApp

/-- The zero value `ServiceBroker{}` used by `createApps` / `deleteApps` as
the "no broker configured" sentinel. -/
def emptyServiceBroker : ServiceBroker :=
  { name := "", username := "", password := "", url := "" }

/-! External response records decoded from the platform's JSON
(`cftype` / cf-cli `resources` packages), restricted to the fields
`seed.go` reads. -/

/-- Decoded app entity: the fields of `cftype.RetrieveAParticularApp.Entity`
read by `firstAppRoute` (`Name`, `RoutesURL`). -/
structure AppEntity where
  name : String
  routesURL : String
  deriving DecidableEq, Repr

/-- Decoded response of `/v2/apps/{guid}` (`cftype.RetrieveAParticularApp`). -/
structure RetrieveAParticularApp where
  entity : AppEntity
  deriving DecidableEq, Repr

/-- Decoded route entity: fields of a route resource read by `firstAppRoute`
(`Host`, `DomainURL`). -/
structure RouteEntity where
  host : String
  domainURL : String
  deriving DecidableEq, Repr

/-- One element of the routes collection. -/
structure RouteResource where
  entity : RouteEntity
  deriving DecidableEq, Repr

/-- Decoded routes collection (`cftype.ListAllRoutesForTheApp`): the code
reads `TotalResults` and `Resources`. -/
structure ListAllRoutesForTheApp where
  totalResults : Nat
  resources : List RouteResource
  deriving DecidableEq, Repr

/-- A decoded routes collection is well formed when its `total_results`
field agrees with the number of returned resources, as in every actual
platform response. -/
def ListAllRoutesForTheApp.WellFormed (r : ListAllRoutesForTheApp) : Prop :=
  r.totalResults = r.resources.length

instance (r : ListAllRoutesForTheApp) : Decidable r.WellFormed := by
  unfold ListAllRoutesForTheApp.WellFormed; infer_instance

/-- Decoded domain entity (`cftype.RetrieveAParticularDomain.Entity.Name`). -/
structure DomainEntity where
  name : String
  deriving DecidableEq, Repr

/-- Decoded response of a domain record fetch. -/
structure RetrieveAParticularDomain where
  entity : DomainEntity
  deriving DecidableEq, Repr

/-- Metadata of one application resource (`Metadata.Guid`). -/
structure ResourceMetadata where
  guid : String
  deriving DecidableEq, Repr

/-- The `Resource` part of a paginated application resource. -/
structure ResourceFields where
  metadata : ResourceMetadata
  deriving DecidableEq, Repr

/-- One element of a paginated application search result
(`resources.ApplicationResource`): `findAppGUID` reads
`.Resource.Metadata.Guid`. -/
structure ApplicationResource where
  resource : ResourceFields
  deriving DecidableEq, Repr

/-- Decoded app search response (`resources.PaginatedApplicationResources`). -/
structure PaginatedApplicationResources where
  resources : List ApplicationResource
  deriving DecidableEq, Repr

/-- The outside world as a pure oracle: results of `CliCommand` invocations,
the local filesystem and `git`, the targeted space GUID read from the CF
config file, and the decoded bodies of the four kinds of `curl` fetches,
each a function of the requested path. -/
structure Env where
  cli : List String → Except String (List String)
  cwd : String
  readDir : String → List String
  lookPathGit : Except String String
  gitCloneRun : String → String → Except String Unit
  spaceGUID : String
  appsSearch : String → PaginatedApplicationResources
  appAt : String → RetrieveAParticularApp
  routesAt : String → ListAllRoutesForTheApp
  domainAt : String → RetrieveAParticularDomain

namespace SeedRepo

/-- `createOrganizations` (seed.go:147): one `create-org` per organization in
manifest order, stopping at the first error. -/
def createOrgsLoop (env : Env) : List Organization → List Call × Outcome Unit
  | [] => ([], Outcome.ok ())
  | org :: rest =>
    match env.cli ["create-org", org.name] with
    | Except.error e => ([Call.cli ["create-org", org.name]], Outcome.err e)
    | Except.ok _ =>
      let r := createOrgsLoop env rest
      (Call.cli ["create-org", org.name] :: r.1, r.2)

/-- `deleteOrganizations` (seed.go:157): one forced `delete-org` per
organization in manifest order, stopping at the first error. -/
def deleteOrgsLoop (env : Env) : List Organization → List Call × Outcome Unit
  | [] => ([], Outcome.ok ())
  | org :: rest =>
    match env.cli ["delete-org", org.name, "-f"] with
    | Except.error e => ([Call.cli ["delete-org", org.name, "-f"]], Outcome.err e)
    | Except.ok _ =>
      let r := deleteOrgsLoop env rest
      (Call.cli ["delete-org", org.name, "-f"] :: r.1, r.2)

/-- Inner loop of `createSpaces` (seed.go:170): `create-space` per space. -/
def createSpacesInner (env : Env) : List Space → List Call × Outcome Unit
  | [] => ([], Outcome.ok ())
  | sp :: rest =>
    match env.cli ["create-space", sp.name] with
    | Except.error e => ([Call.cli ["create-space", sp.name]], Outcome.err e)
    | Except.ok _ =>
      let r := createSpacesInner env rest
      (Call.cli ["create-space", sp.name] :: r.1, r.2)

/-- `createSpaces` (seed.go:167): per organization, a `target -o` call whose
result is ignored, then the spaces. -/
def createSpacesLoop (env : Env) : List Organization → List Call × Outcome Unit
  | [] => ([], Outcome.ok ())
  | org :: rest =>
    let inner := createSpacesInner env org.spaces
    match inner.2 with
    | Outcome.ok _ =>
      let r := createSpacesLoop env rest
      (Call.cli ["target", "-o", org.name] :: (inner.1 ++ r.1), r.2)
    | o => (Call.cli ["target", "-o", org.name] :: inner.1, o)

/-- Inner loop of `deleteSpaces` (seed.go:183): forced `delete-space`. -/
def deleteSpacesInner (env : Env) : List Space → List Call × Outcome Unit
  | [] => ([], Outcome.ok ())
  | sp :: rest =>
    match env.cli ["delete-space", sp.name, "-f"] with
    | Except.error e => ([Call.cli ["delete-space", sp.name, "-f"]], Outcome.err e)
    | Except.ok _ =>
      let r := deleteSpacesInner env rest
      (Call.cli ["delete-space", sp.name, "-f"] :: r.1, r.2)

/-- `deleteSpaces` (seed.go:180): per organization, unchecked `target -o`,
then forced space deletions. -/
def deleteSpacesLoop (env : Env) : List Organization → List Call × Outcome Unit
  | [] => ([], Outcome.ok ())
  | org :: rest =>
    let inner := deleteSpacesInner env org.spaces
    match inner.2 with
    | Outcome.ok _ =>
      let r := deleteSpacesLoop env rest
      (Call.cli ["target", "-o", org.name] :: (inner.1 ++ r.1), r.2)
    | o => (Call.cli ["target", "-o", org.name] :: inner.1, o)

/-- Innermost loop of `createServices` (seed.go:197). -/
def createServicesInner (env : Env) : List Service → List Call × Outcome Unit
  | [] => ([], Outcome.ok ())
  | s :: rest =>
    match env.cli ["create-service", s.service, s.plan, s.name] with
    | Except.error e => ([Call.cli ["create-service", s.service, s.plan, s.name]], Outcome.err e)
    | Except.ok _ =>
      let r := createServicesInner env rest
      (Call.cli ["create-service", s.service, s.plan, s.name] :: r.1, r.2)

/-- Space-level loop of `createServices` (seed.go:195): unchecked
`target -o org -s space`, then the services. -/
def createServicesSpaces (env : Env) (orgName : String) :
    List Space → List Call × Outcome Unit
  | [] => ([], Outcome.ok ())
  | sp :: rest =>
    let inner := createServicesInner env sp.services
    match inner.2 with
    | Outcome.ok _ =>
      let r := createServicesSpaces env orgName rest
      (Call.cli ["target", "-o", orgName, "-s", sp.name] :: (inner.1 ++ r.1), r.2)
    | o => (Call.cli ["target", "-o", orgName, "-s", sp.name] :: inner.1, o)

/-- `createServices` (seed.go:193). -/
def createServicesLoop (env : Env) : List Organization → List Call × Outcome Unit
  | [] => ([], Outcome.ok ())
  | org :: rest =>
    let inner := createServicesSpaces env org.name org.spaces
    match inner.2 with
    | Outcome.ok _ =>
      let r := createServicesLoop env rest
      (inner.1 ++ r.1, r.2)
    | _ => inner

/-- Innermost loop of `deleteServices` (seed.go:212): forced
`delete-service`. -/
def deleteServicesInner (env : Env) : List Service → List Call × Outcome Unit
  | [] => ([], Outcome.ok ())
  | s :: rest =>
    match env.cli ["delete-service", s.name, "-f"] with
    | Except.error e => ([Call.cli ["delete-service", s.name, "-f"]], Outcome.err e)
    | Except.ok _ =>
      let r := deleteServicesInner env rest
      (Call.cli ["delete-service", s.name, "-f"] :: r.1, r.2)

/-- Space-level loop of `deleteServices` (seed.go:210). -/
def deleteServicesSpaces (env : Env) (orgName : String) :
    List Space → List Call × Outcome Unit
  | [] => ([], Outcome.ok ())
  | sp :: rest =>
    let inner := deleteServicesInner env sp.services
    match inner.2 with
    | Outcome.ok _ =>
      let r := deleteServicesSpaces env orgName rest
      (Call.cli ["target", "-o", orgName, "-s", sp.name] :: (inner.1 ++ r.1), r.2)
    | o => (Call.cli ["target", "-o", orgName, "-s", sp.name] :: inner.1, o)

/-- `deleteServices` (seed.go:208). -/
def deleteServicesLoop (env : Env) : List Organization → List Call × Outcome Unit
  | [] => ([], Outcome.ok ())
  | org :: rest =>
    let inner := deleteServicesSpaces env org.name org.spaces
    match inner.2 with
    | Outcome.ok _ =>
      let r := deleteServicesLoop env rest
      (inner.1 ++ r.1, r.2)
    | _ => inner

end SeedRepo

/-- The conditional flags of the push command (seed.go:308-328): each of
disk/memory/instances/hostname/domain/buildpack/manifestFile is appended
only when non-empty, in source order. -/
def pushFlags (app : App) : List String :=
  (if app.disk ≠ "" then ["-k", app.disk] else []) ++
  (if app.memory ≠ "" then ["-m", app.memory] else []) ++
  (if app.instances ≠ "" then ["-i", app.instances] else []) ++
  (if app.hostname ≠ "" then ["-n", app.hostname] else []) ++
  (if app.domain ≠ "" then ["-d", app.domain] else []) ++
  (if app.buildpack ≠ "" then ["-b", app.buildpack] else []) ++
  (if app.manifest ≠ "" then ["-f", app.manifest] else [])

/-- `deployApp` (seed.go:280): resolve a source (repository working
directory, cloned only when the directory is empty; or explicit path),
then issue the push.  Faithful to two source quirks: a failed clone makes
the function return `nil` without pushing (seed.go:296), and the push's
`CliCommand` result is discarded (seed.go:330), so the outcome after a
push is always `ok` whatever the platform answers. -/
def SeedRepo.deployApp (env : Env) (app : App) : List Call × Outcome Unit :=
  if app.repo ≠ "" then
    let appPath := env.cwd ++ "/apps/" ++ app.name
    let files := env.readDir appPath
    if files.length = 0 then
      match env.lookPathGit with
      | Except.error e => ([], Outcome.err e)
      | Except.ok _ =>
        match env.gitCloneRun app.repo appPath with
        | Except.error _ => ([Call.gitClone app.repo appPath], Outcome.ok ())
        | Except.ok _ =>
          ([Call.gitClone app.repo appPath,
            Call.cli (["push", app.name, "-p", appPath] ++ pushFlags app)],
           Outcome.ok ())
    else
      ([Call.cli (["push", app.name, "-p", appPath] ++ pushFlags app)],
       Outcome.ok ())
  else if app.path ≠ "" then
    ([Call.cli (["push", app.name, "-p", app.path] ++ pushFlags app)],
     Outcome.ok ())
  else
    ([], Outcome.err ("App need repo or path " ++ app.name))

/-- `deleteApp` (seed.go:269): forced, route-removing delete. -/
def SeedRepo.deleteApp (env : Env) (app : App) : List Call × Outcome Unit :=
  match env.cli ["delete", app.name, "-f", "-r"] with
  | Except.error e => ([Call.cli ["delete", app.name, "-f", "-r"]], Outcome.err e)
  | Except.ok _ => ([Call.cli ["delete", app.name, "-f", "-r"]], Outcome.ok ())

/-- The app search path built by `findAppGUID` (seed.go:416). -/
def appSearchQuery (spaceGUID appName : String) : String :=
  "/v2/spaces/" ++ spaceGUID ++ "/apps?q=name:" ++ appName ++
    "&inline-relations-depth=1"

/-- `findAppGUID` (seed.go:415): app search by name in the targeted space;
the source indexes `Resources[0]` without a guard, so an empty result set
is a runtime panic (`crash`), not an error return. -/
def SeedRepo.findAppGUID (env : Env) (spaceGUID appName : String) :
    List Call × Outcome String :=
  let appQuery := appSearchQuery spaceGUID appName
  match (env.appsSearch appQuery).resources with
  | [] => ([Call.curl appQuery], Outcome.crash)
  | r :: _ => ([Call.curl appQuery], Outcome.ok r.resource.metadata.guid)

/-- `findApp` (seed.go:407): fetch the detail record of one application. -/
def SeedRepo.findApp (env : Env) (appGUID : String) :
    List Call × RetrieveAParticularApp :=
  let path := "/v2/apps/" ++ appGUID
  ([Call.curl path], env.appAt path)

/-- `getAppInfo` (seed.go:375): read the targeted space GUID from the CF
config file, search the app by name, then fetch its detail record. -/
def SeedRepo.getAppInfo (env : Env) (app : App) :
    List Call × Outcome RetrieveAParticularApp :=
  match SeedRepo.findAppGUID env env.spaceGUID app.name with
  | (t, Outcome.ok guid) =>
    let r := SeedRepo.findApp env guid
    (t ++ r.1, Outcome.ok r.2)
  | (t, Outcome.err e) => (t, Outcome.err e)
  | (t, Outcome.crash) => (t, Outcome.crash)

/-- `firstAppRoute` (seed.go:385): fetch the app's routes collection; a
`total_results` of zero is the "no routes" error; otherwise take the first
route (an empty `Resources` list with non-zero `total_results` would panic),
fetch its domain, and compose `host.domain`, or the bare domain when the
host segment is empty. -/
def SeedRepo.firstAppRoute (env : Env) (app : RetrieveAParticularApp) :
    List Call × Outcome String :=
  let routes := env.routesAt app.entity.routesURL
  if routes.totalResults = 0 then
    ([Call.curl app.entity.routesURL],
     Outcome.err ("App '" ++ app.entity.name ++ "' has no routes"))
  else
    match routes.resources with
    | [] => ([Call.curl app.entity.routesURL], Outcome.crash)
    | route :: _ =>
      let domain := env.domainAt route.entity.domainURL
      if route.entity.host ≠ "" then
        ([Call.curl app.entity.routesURL, Call.curl route.entity.domainURL],
         Outcome.ok (route.entity.host ++ "." ++ domain.entity.name))
      else
        ([Call.curl app.entity.routesURL, Call.curl route.entity.domainURL],
         Outcome.ok domain.entity.name)

/-- The route-resolution sequence shared verbatim by `setAppAsService`
(seed.go:336-340) and `deleteAppAsService` (seed.go:356-360):
`getAppInfo` followed by `firstAppRoute`. -/
def SeedRepo.resolveRoute (env : Env) (app : App) : List Call × Outcome String :=
  match SeedRepo.getAppInfo env app with
  | (t, Outcome.ok info) =>
    let r := SeedRepo.firstAppRoute env info
    (t ++ r.1, r.2)
  | (t, Outcome.err e) => (t, Outcome.err e)
  | (t, Outcome.crash) => (t, Outcome.crash)

/-- `createServiceBroker` (seed.go:426). -/
def SeedRepo.createServiceBroker (env : Env) (broker : ServiceBroker) :
    List Call × Outcome Unit :=
  let args := ["create-service-broker", broker.name, broker.username,
    broker.password, broker.url]
  match env.cli args with
  | Except.error e => ([Call.cli args], Outcome.err e)
  | Except.ok _ => ([Call.cli args], Outcome.ok ())

/-- `deleteServiceBroker` (seed.go:432): always forced (`-f`). -/
def SeedRepo.deleteServiceBroker (env : Env) (broker : ServiceBroker) :
    List Call × Outcome Unit :=
  let args := ["delete-service-broker", broker.name, "-f"]
  match env.cli args with
  | Except.error e => ([Call.cli args], Outcome.err e)
  | Except.ok _ => ([Call.cli args], Outcome.ok ())

/-- Argument list of `enableServiceAccess` (seed.go:438): plan and org
filters only when non-empty. -/
def enableServiceAccessArgs (service : Service) : List String :=
  ["enable-service-access", service.service] ++
  (if service.plan ≠ "" then ["-p", service.plan] else []) ++
  (if service.org ≠ "" then ["-o", service.org] else [])

/-- Argument list of `disableServiceAccess` (seed.go:450). -/
def disableServiceAccessArgs (service : Service) : List String :=
  ["disable-service-access", service.service] ++
  (if service.plan ≠ "" then ["-p", service.plan] else []) ++
  (if service.org ≠ "" then ["-o", service.org] else [])

/-- `enableServiceAccess` (seed.go:438). -/
def SeedRepo.enableServiceAccess (env : Env) (service : Service) :
    List Call × Outcome Unit :=
  match env.cli (enableServiceAccessArgs service) with
  | Except.error e => ([Call.cli (enableServiceAccessArgs service)], Outcome.err e)
  | Except.ok _ => ([Call.cli (enableServiceAccessArgs service)], Outcome.ok ())

/-- `disableServiceAccess` (seed.go:450). -/
def SeedRepo.disableServiceAccess (env : Env) (service : Service) :
    List Call × Outcome Unit :=
  match env.cli (disableServiceAccessArgs service) with
  | Except.error e => ([Call.cli (disableServiceAccessArgs service)], Outcome.err e)
  | Except.ok _ => ([Call.cli (disableServiceAccessArgs service)], Outcome.ok ())

/-- The `serviceAccess` loop of `setAppAsService` (seed.go:346-351). -/
def enableAccessLoop (env : Env) : List Service → List Call × Outcome Unit
  | [] => ([], Outcome.ok ())
  | s :: rest =>
    match SeedRepo.enableServiceAccess env s with
    | (t, Outcome.ok _) =>
      let r := enableAccessLoop env rest
      (t ++ r.1, r.2)
    | x => x

/-- The `serviceAccess` loop of `deleteAppAsService` (seed.go:362-367). -/
def disableAccessLoop (env : Env) : List Service → List Call × Outcome Unit
  | [] => ([], Outcome.ok ())
  | s :: rest =>
    match SeedRepo.disableServiceAccess env s with
    | (t, Outcome.ok _) =>
      let r := disableAccessLoop env rest
      (t ++ r.1, r.2)
    | x => x

/-- `setAppAsService` (seed.go:335): resolve the route, set the url on the
local copy of the application (the `app` parameter is passed by value in
Go, so the stored manifest is untouched), create the broker, then enable
each service-access entry in list order. -/
def SeedRepo.setAppAsService (env : Env) (app : App) : List Call × Outcome Unit :=
  match SeedRepo.resolveRoute env app with
  | (t, Outcome.ok appRoute) =>
    let app := { app with
      serviceBroker := { app.serviceBroker with url := "https://" ++ appRoute } }
    match SeedRepo.createServiceBroker env app.serviceBroker with
    | (t2, Outcome.ok _) =>
      let r := enableAccessLoop env app.serviceAccess
      (t ++ t2 ++ r.1, r.2)
    | (t2, o) => (t ++ t2, o)
  | (t, Outcome.err e) => (t, Outcome.err e)
  | (t, Outcome.crash) => (t, Outcome.crash)

/-- `deleteAppAsService` (seed.go:355): resolve the route, set the url on
the local copy, disable each service-access entry in list order, then
force-delete the broker. -/
def SeedRepo.deleteAppAsService (env : Env) (app : App) : List Call × Outcome Unit :=
  match SeedRepo.resolveRoute env app with
  | (t, Outcome.ok appRoute) =>
    let app := { app with
      serviceBroker := { app.serviceBroker with url := "https://" ++ appRoute } }
    match disableAccessLoop env app.serviceAccess with
    | (t2, Outcome.ok _) =>
      let r := SeedRepo.deleteServiceBroker env app.serviceBroker
      (t ++ t2 ++ r.1, r.2)
    | (t2, o) => (t ++ t2, o)
  | (t, Outcome.err e) => (t, Outcome.err e)
  | (t, Outcome.crash) => (t, Outcome.crash)

/-- App loop of `createApps` (seed.go:227-240): deploy, then when the
broker field differs from the zero value, register the app as a service. -/
def createAppsApps (env : Env) : List App → List Call × Outcome Unit
  | [] => ([], Outcome.ok ())
  | app :: rest =>
    match SeedRepo.deployApp env app with
    | (t, Outcome.ok _) =>
      if app.serviceBroker ≠ emptyServiceBroker then
        match SeedRepo.setAppAsService env app with
        | (t2, Outcome.ok _) =>
          let r := createAppsApps env rest
          (t ++ t2 ++ r.1, r.2)
        | (t2, o) => (t ++ t2, o)
      else
        let r := createAppsApps env rest
        (t ++ r.1, r.2)
    | x => x

/-- Space loop of `createApps` (seed.go:225): unchecked targeting call,
then the apps. -/
def createAppsSpaces (env : Env) (orgName : String) :
    List Space → List Call × Outcome Unit
  | [] => ([], Outcome.ok ())
  | sp :: rest =>
    let inner := createAppsApps env sp.apps
    match inner.2 with
    | Outcome.ok _ =>
      let r := createAppsSpaces env orgName rest
      (Call.cli ["target", "-o", orgName, "-s", sp.name] :: (inner.1 ++ r.1), r.2)
    | o => (Call.cli ["target", "-o", orgName, "-s", sp.name] :: inner.1, o)

/-- Organization loop of `createApps` (seed.go:224). -/
def createAppsLoop (env : Env) : List Organization → List Call × Outcome Unit
  | [] => ([], Outcome.ok ())
  | org :: rest =>
    let inner := createAppsSpaces env org.name org.spaces
    match inner.2 with
    | Outcome.ok _ =>
      let r := createAppsLoop env rest
      (inner.1 ++ r.1, r.2)
    | _ => inner

/-- App loop of `deleteApps` (seed.go:250-262): deregister the broker first
when the broker field differs from the zero value, then delete the app. -/
def deleteAppsApps (env : Env) : List App → List Call × Outcome Unit
  | [] => ([], Outcome.ok ())
  | app :: rest =>
    let pre : List Call × Outcome Unit :=
      if app.serviceBroker ≠ emptyServiceBroker then
        SeedRepo.deleteAppAsService env app
      else ([], Outcome.ok ())
    match pre.2 with
    | Outcome.ok _ =>
      match SeedRepo.deleteApp env app with
      | (t, Outcome.ok _) =>
        let r := deleteAppsApps env rest
        (pre.1 ++ t ++ r.1, r.2)
      | (t, o) => (pre.1 ++ t, o)
    | o => (pre.1, o)

/-- Space loop of `deleteApps` (seed.go:248). -/
def deleteAppsSpaces (env : Env) (orgName : String) :
    List Space → List Call × Outcome Unit
  | [] => ([], Outcome.ok ())
  | sp :: rest =>
    let inner := deleteAppsApps env sp.apps
    match inner.2 with
    | Outcome.ok _ =>
      let r := deleteAppsSpaces env orgName rest
      (Call.cli ["target", "-o", orgName, "-s", sp.name] :: (inner.1 ++ r.1), r.2)
    | o => (Call.cli ["target", "-o", orgName, "-s", sp.name] :: inner.1, o)

/-- Organization loop of `deleteApps` (seed.go:247). -/
def deleteAppsLoop (env : Env) : List Organization → List Call × Outcome Unit
  | [] => ([], Outcome.ok ())
  | org :: rest =>
    let inner := deleteAppsSpaces env org.name org.spaces
    match inner.2 with
    | Outcome.ok _ =>
      let r := deleteAppsLoop env rest
      (inner.1 ++ r.1, r.2)
    | _ => inner

/-! Stage wrappers.  Each Go method runs on `repo *SeedRepo` but contains
no assignment through the pointer, so the manifest is returned unchanged;
the loops above iterate over range copies. -/

/-- `createOrganizations` (seed.go:147) as a stage over the repo state. -/
def SeedRepo.createOrganizations (env : Env) (m : SeederManifest) :
    SeederManifest × List Call × Outcome Unit :=
  let r := SeedRepo.createOrgsLoop env m.organizations
  (m, r.1, r.2)

/-- `deleteOrganizations` (seed.go:157) as a stage over the repo state. -/
def SeedRepo.deleteOrganizations (env : Env) (m : SeederManifest) :
    SeederManifest × List Call × Outcome Unit :=
  let r := SeedRepo.deleteOrgsLoop env m.organizations
  (m, r.1, r.2)

/-- `createSpaces` (seed.go:167) as a stage over the repo state. -/
def SeedRepo.createSpaces (env : Env) (m : SeederManifest) :
    SeederManifest × List Call × Outcome Unit :=
  let r := SeedRepo.createSpacesLoop env m.organizations
  (m, r.1, r.2)

/-- `deleteSpaces` (seed.go:180) as a stage over the repo state. -/
def SeedRepo.deleteSpaces (env : Env) (m : SeederManifest) :
    SeederManifest × List Call × Outcome Unit :=
  let r := SeedRepo.deleteSpacesLoop env m.organizations
  (m, r.1, r.2)

/-- `createServices` (seed.go:193) as a stage over the repo state. -/
def SeedRepo.createServices (env : Env) (m : SeederManifest) :
    SeederManifest × List Call × Outcome Unit :=
  let r := SeedRepo.createServicesLoop env m.organizations
  (m, r.1, r.2)

/-- `deleteServices` (seed.go:208) as a stage over the repo state. -/
def SeedRepo.deleteServices (env : Env) (m : SeederManifest) :
    SeederManifest × List Call × Outcome Unit :=
  let r := SeedRepo.deleteServicesLoop env m.organizations
  (m, r.1, r.2)

/-- `createApps` (seed.go:223) as a stage over the repo state. -/
def SeedRepo.createApps (env : Env) (m : SeederManifest) :
    SeederManifest × List Call × Outcome Unit :=
  let r := createAppsLoop env m.organizations
  (m, r.1, r.2)

/-- `deleteApps` (seed.go:246) as a stage over the repo state. -/
def SeedRepo.deleteApps (env : Env) (m : SeederManifest) :
    SeederManifest × List Call × Outcome Unit :=
  let r := deleteAppsLoop env m.organizations
  (m, r.1, r.2)

/-- `SeedPlugin.Run`'s action (seed.go:55-91) after the manifest has been
read: with the cleanup flag the four delete stages, otherwise the four
create stages, each wrapped in `fatalIf`, which stops the run at the first
failing stage. -/
def SeedPlugin.Run (env : Env) (cleanup : Bool) (m : SeederManifest) :
    SeederManifest × List Call × Outcome Unit :=
  if cleanup then
    match SeedRepo.deleteApps env m with
    | (m1, t1, Outcome.ok _) =>
      match SeedRepo.deleteServices env m1 with
      | (m2, t2, Outcome.ok _) =>
        match SeedRepo.deleteSpaces env m2 with
        | (m3, t3, Outcome.ok _) =>
          let r := SeedRepo.deleteOrganizations env m3
          (r.1, t1 ++ t2 ++ t3 ++ r.2.1, r.2.2)
        | (m3, t3, o) => (m3, t1 ++ t2 ++ t3, o)
      | (m2, t2, o) => (m2, t1 ++ t2, o)
    | x => x
  else
    match SeedRepo.createOrganizations env m with
    | (m1, t1, Outcome.ok _) =>
      match SeedRepo.createSpaces env m1 with
      | (m2, t2, Outcome.ok _) =>
        match SeedRepo.createApps env m2 with
        | (m3, t3, Outcome.ok _) =>
          let r := SeedRepo.createServices env m3
          (r.1, t1 ++ t2 ++ t3 ++ r.2.1, r.2.2)
        | (m3, t3, o) => (m3, t1 ++ t2 ++ t3, o)
      | (m2, t2, o) => (m2, t1 ++ t2, o)
    | x => x

/-! Helper predicates over calls, and concrete sample inputs used by the
closed evaluation theorems. -/

/-- First word of a `cli` call, `""` for anything else. -/
def cliHead : Call → String
  | Call.cli (x :: _) => x
  | _ => ""

/-- Is this call an organization-creation command? -/
def isCreateOrg (c : Call) : Bool := cliHead c == "create-org"

/-- Is this call an organization-deletion command? -/
def isDeleteOrg (c : Call) : Bool := cliHead c == "delete-org"

/-- Is this call a read-only `curl` query? -/
def isCurl : Call → Bool
  | Call.curl _ => true
  | _ => false

/-- Is this call an organization-level create or delete command? -/
def orgCmd (c : Call) : Bool := isCreateOrg c || isDeleteOrg c

/-- All broker urls stored in a manifest, in manifest order. -/
def brokerUrls (m : SeederManifest) : List String :=
  ((m.organizations.map
    (fun o => o.spaces.map (fun sp => sp.apps.map (fun a => a.serviceBroker.url)))).flatten).flatten

/-- A fully cooperative oracle: every command succeeds, the app search finds
one app with GUID `g1`, the app has one route `myapp` on domain
`example.com`, and local app directories are non-empty. -/
def envOk : Env :=
  { cli := fun _ => Except.ok []
    cwd := "/w"
    readDir := fun _ => ["f"]
    lookPathGit := Except.ok "/usr/bin/git"
    gitCloneRun := fun _ _ => Except.ok ()
    spaceGUID := "sg"
    appsSearch := fun _ => ⟨[⟨⟨⟨"g1"⟩⟩⟩]⟩
    appAt := fun _ => ⟨⟨"api", "/v2/apps/g1/routes"⟩⟩
    routesAt := fun _ => ⟨1, [⟨⟨"myapp", "/v2/domains/d1"⟩⟩]⟩
    domainAt := fun _ => ⟨⟨"example.com"⟩⟩ }

/-- A broker-flagged application `api` deployed from `./api`, with one
service-access entry for offering `s1`, plan `free`. -/
def appBroker : App :=
  { name := "api", repo := "", path := "./api", disk := "", memory := "",
    instances := "", hostname := "", domain := "", buildpack := "", manifest := "",
    serviceBroker := { name := "b1", username := "u", password := "p", url := "" },
    serviceAccess := [{ name := "", service := "s1", plan := "free", org := "" }] }

/-- One organization `acme`, one space `dev`, the broker-flagged app and one
service instance. -/
def mSample : SeederManifest :=
  { organizations := [
      { name := "acme", spaces := [
          { name := "dev", apps := [appBroker],
            services := [{ name := "db", service := "pg", plan := "small", org := "" }] } ] } ] }

/-- Like `envOk`, but the routes collection of every app is empty
(`total_results = 0`). -/
def envNoRoutes : Env :=
  { envOk with routesAt := fun _ => ⟨0, []⟩ }

/-- Like `envOk`, but the app search matches nothing. -/
def envNoMatch : Env :=
  { envOk with appsSearch := fun _ => ⟨[]⟩ }

/-- Like `envOk`, but every `CliCommand` invocation reports a platform
error. -/
def envCliFails : Env :=
  { envOk with cli := fun _ => Except.error "platform failure" }

/-- A plain application deployed from a local path: no broker, no access
grants. -/
def appPathOnly : App :=
  { name := "api", repo := "", path := "./api", disk := "", memory := "",
    instances := "", hostname := "", domain := "", buildpack := "", manifest := "",
    serviceBroker := emptyServiceBroker, serviceAccess := [] }

/-- An application with neither `repo` nor `path` set. -/
def appNoSource : App :=
  { appPathOnly with path := "" }

/-- An application in repository-source mode. -/
def appRepoOnly : App :=
  { appPathOnly with path := "", repo := "https://example.com/api.git" }

/-- A sample decoded app detail record, as `firstAppRoute` receives it. -/
def appInfoSample : RetrieveAParticularApp :=
  { entity := { name := "api", routesURL := "/v2/apps/g1/routes" } }

/-!  Theorems.  First, small evaluation rules for the call predicates. -/

@[simp] theorem isCreateOrg_cli_cons (x : String) (l : List String) :
    isCreateOrg (Call.cli (x :: l)) = (x == "create-org") := rfl

@[simp] theorem isCreateOrg_curl (p : String) : isCreateOrg (Call.curl p) = false := rfl

@[simp] theorem isCreateOrg_gitClone (r p : String) :
    isCreateOrg (Call.gitClone r p) = false := rfl

@[simp] theorem isDeleteOrg_cli_cons (x : String) (l : List String) :
    isDeleteOrg (Call.cli (x :: l)) = (x == "delete-org") := rfl

@[simp] theorem isDeleteOrg_curl (p : String) : isDeleteOrg (Call.curl p) = false := rfl

@[simp] theorem isDeleteOrg_gitClone (r p : String) :
    isDeleteOrg (Call.gitClone r p) = false := rfl

/-- C6: an `Application` whose `repo` and `path` fields are both empty makes
`deployApp` return the configuration error `App need repo or path <name>`
(which contains the application's name), and the trace is empty: no
platform call and no git invocation is issued. -/
theorem deployApp_no_source_is_config_error (env : Env) (app : App)
    (hrepo : app.repo = "") (hpath : app.path = "") :
    SeedRepo.deployApp env app =
      ([], Outcome.err ("App need repo or path " ++ app.name)) := by
  unfold SeedRepo.deployApp
  simp [hrepo, hpath]

theorem deployApp_no_source_is_config_error_witness :
    appNoSource.repo = "" ∧ appNoSource.path = "" ∧
    SeedRepo.deployApp envOk appNoSource =
      ([], Outcome.err ("App need repo or path " ++ appNoSource.name)) :=
  ⟨rfl, rfl, deployApp_no_source_is_config_error envOk appNoSource rfl rfl⟩

/-- C7: an `Application` in repository-source mode whose working directory
`apps/<name>` is non-empty is deployed without any git-clone invocation:
the trace is exactly the push command with `-p` pointing at that
directory. -/
theorem deployApp_existing_source_no_clone (env : Env) (app : App)
    (hrepo : app.repo ≠ "")
    (hfiles : env.readDir (env.cwd ++ "/apps/" ++ app.name) ≠ []) :
    SeedRepo.deployApp env app =
      ([Call.cli (["push", app.name, "-p", env.cwd ++ "/apps/" ++ app.name]
        ++ pushFlags app)], Outcome.ok ())
    ∧ ∀ u d, Call.gitClone u d ∉ (SeedRepo.deployApp env app).1 := by
  have hlen : (env.readDir (env.cwd ++ "/apps/" ++ app.name)).length ≠ 0 := by
    simpa [List.length_eq_zero] using hfiles
  have htr : SeedRepo.deployApp env app =
      ([Call.cli (["push", app.name, "-p", env.cwd ++ "/apps/" ++ app.name]
        ++ pushFlags app)], Outcome.ok ()) := by
    unfold SeedRepo.deployApp
    simp [hrepo, hlen]
  refine ⟨htr, ?_⟩
  intro u d hmem
  rw [htr] at hmem
  simp at hmem

theorem deployApp_existing_source_no_clone_witness :
    appRepoOnly.repo ≠ "" ∧
    envOk.readDir (envOk.cwd ++ "/apps/" ++ appRepoOnly.name) ≠ [] ∧
    SeedRepo.deployApp envOk appRepoOnly =
      ([Call.cli (["push", appRepoOnly.name, "-p",
        envOk.cwd ++ "/apps/" ++ appRepoOnly.name] ++ pushFlags appRepoOnly)],
       Outcome.ok ()) :=
  ⟨by decide, by decide,
   (deployApp_existing_source_no_clone envOk appRepoOnly (by decide) (by decide)).1⟩

/-- C8 (code bug evidence): even when the platform reports an error for the
issued push command, `deployApp` returns `ok`: the result of the
`CliCommand` push at seed.go:330 is discarded, so a push failure is not
surfaced to the caller. -/
theorem deployApp_push_failure_not_surfaced (env : Env) (app : App) (e : String)
    (hrepo : app.repo = "") (hpath : app.path ≠ "")
    (_hfail : env.cli (["push", app.name, "-p", app.path] ++ pushFlags app)
      = Except.error e) :
    SeedRepo.deployApp env app =
      ([Call.cli (["push", app.name, "-p", app.path] ++ pushFlags app)],
       Outcome.ok ()) := by
  unfold SeedRepo.deployApp
  simp [hrepo, hpath]

theorem deployApp_push_failure_not_surfaced_witness :
    appPathOnly.repo = "" ∧ appPathOnly.path ≠ "" ∧
    envCliFails.cli (["push", appPathOnly.name, "-p", appPathOnly.path]
      ++ pushFlags appPathOnly) = Except.error "platform failure" ∧
    SeedRepo.deployApp envCliFails appPathOnly =
      ([Call.cli (["push", appPathOnly.name, "-p", appPathOnly.path]
        ++ pushFlags appPathOnly)], Outcome.ok ()) :=
  ⟨rfl, by decide, rfl,
   deployApp_push_failure_not_surfaced envCliFails appPathOnly "platform failure"
     rfl (by decide) rfl⟩

/-- C3: when the (well-formed) routes collection of the application has zero
entries, `firstAppRoute` returns the error `App '<name>' has no routes`,
naming the application by the name in the fetched app record, produces no
hostname, and does not even fetch a domain record — this holds for every
environment, hence regardless of the domain lookup's contents. -/
theorem firstAppRoute_zero_routes_error (env : Env) (app : RetrieveAParticularApp)
    (hwf : (env.routesAt app.entity.routesURL).WellFormed)
    (hz : (env.routesAt app.entity.routesURL).resources = []) :
    SeedRepo.firstAppRoute env app =
      ([Call.curl app.entity.routesURL],
       Outcome.err ("App '" ++ app.entity.name ++ "' has no routes")) := by
  have hzero : (env.routesAt app.entity.routesURL).totalResults = 0 := by
    rw [hwf, hz]; rfl
  unfold SeedRepo.firstAppRoute
  simp [hzero]

theorem firstAppRoute_zero_routes_error_witness :
    (envNoRoutes.routesAt appInfoSample.entity.routesURL).WellFormed ∧
    (envNoRoutes.routesAt appInfoSample.entity.routesURL).resources = [] ∧
    SeedRepo.firstAppRoute envNoRoutes appInfoSample =
      ([Call.curl appInfoSample.entity.routesURL],
       Outcome.err ("App '" ++ appInfoSample.entity.name ++ "' has no routes")) :=
  ⟨by decide, rfl,
   firstAppRoute_zero_routes_error envNoRoutes appInfoSample (by decide) rfl⟩

/-- C2: route resolution (the `getAppInfo` + `firstAppRoute` sequence shared
by registration and deregistration), given an app search with at least one
match and a well-formed routes collection with at least one entry, returns
`host.domain` built from the first route's host and the fetched domain
record's name when the host segment is non-empty, and the bare domain name
when the host segment is empty. -/
theorem resolveRoute_composes_host_and_domain (env : Env) (app : App)
    (r : ApplicationResource) (rs : List ApplicationResource)
    (rt : RouteResource) (rts : List RouteResource)
    (hsearch : (env.appsSearch (appSearchQuery env.spaceGUID app.name)).resources
      = r :: rs)
    (hwf : (env.routesAt
      ((env.appAt ("/v2/apps/" ++ r.resource.metadata.guid)).entity.routesURL)).WellFormed)
    (hne : (env.routesAt
      ((env.appAt ("/v2/apps/" ++ r.resource.metadata.guid)).entity.routesURL)).resources
      = rt :: rts) :
    (rt.entity.host ≠ "" →
      (SeedRepo.resolveRoute env app).2 =
        Outcome.ok (rt.entity.host ++ "." ++ (env.domainAt rt.entity.domainURL).entity.name))
    ∧ (rt.entity.host = "" →
      (SeedRepo.resolveRoute env app).2 =
        Outcome.ok ((env.domainAt rt.entity.domainURL).entity.name)) := by
  have hnz : (env.routesAt
      ((env.appAt ("/v2/apps/" ++ r.resource.metadata.guid)).entity.routesURL)).totalResults
      ≠ 0 := by
    rw [hwf, hne]; simp
  unfold SeedRepo.resolveRoute SeedRepo.getAppInfo SeedRepo.findAppGUID
    SeedRepo.findApp SeedRepo.firstAppRoute
  simp only [hsearch]
  simp only [hnz, hne, if_neg]
  constructor <;> intro hh <;> simp [hh]

theorem resolveRoute_composes_host_and_domain_witness :
    (envOk.appsSearch (appSearchQuery envOk.spaceGUID appBroker.name)).resources
      = [⟨⟨⟨"g1"⟩⟩⟩] ∧
    (SeedRepo.resolveRoute envOk appBroker).2 = Outcome.ok "myapp.example.com" := by
  refine ⟨rfl, ?_⟩
  have h := (resolveRoute_composes_host_and_domain envOk appBroker
    ⟨⟨⟨"g1"⟩⟩⟩ [] ⟨⟨"myapp", "/v2/domains/d1"⟩⟩ [] rfl (by decide) rfl).1 (by decide)
  exact h.trans (by decide)

/-- C10: with an app search result of zero matches, the GUID lookup
(`findAppGUID`, seed.go:423) indexes the first element of the empty
resource list unguarded: in this total embedding it yields `crash` (the Go
runtime panic), and both broker registration and deregistration abort with
`crash` — neither has an error branch for the zero-match case. -/
theorem findAppGUID_empty_search_panics (env : Env) (app : App)
    (hempty : (env.appsSearch (appSearchQuery env.spaceGUID app.name)).resources = []) :
    (SeedRepo.findAppGUID env env.spaceGUID app.name).2 = Outcome.crash
    ∧ (SeedRepo.setAppAsService env app).2 = Outcome.crash
    ∧ (SeedRepo.deleteAppAsService env app).2 = Outcome.crash
    ∧ (∀ s, (SeedRepo.setAppAsService env app).2 ≠ Outcome.err s)
    ∧ (∀ s, (SeedRepo.deleteAppAsService env app).2 ≠ Outcome.err s) := by
  have h1 : SeedRepo.findAppGUID env env.spaceGUID app.name
      = ([Call.curl (appSearchQuery env.spaceGUID app.name)], Outcome.crash) := by
    unfold SeedRepo.findAppGUID
    simp [hempty]
  have h2 : SeedRepo.resolveRoute env app
      = ([Call.curl (appSearchQuery env.spaceGUID app.name)], Outcome.crash) := by
    unfold SeedRepo.resolveRoute SeedRepo.getAppInfo
    rw [h1]
  have h3 : (SeedRepo.setAppAsService env app).2 = Outcome.crash := by
    unfold SeedRepo.setAppAsService
    rw [h2]
  have h4 : (SeedRepo.deleteAppAsService env app).2 = Outcome.crash := by
    unfold SeedRepo.deleteAppAsService
    rw [h2]
  refine ⟨by rw [h1], h3, h4, ?_, ?_⟩
  · intro s; rw [h3]; exact fun hh => Outcome.noConfusion hh
  · intro s; rw [h4]; exact fun hh => Outcome.noConfusion hh

theorem findAppGUID_empty_search_panics_witness :
    (envNoMatch.appsSearch (appSearchQuery envNoMatch.spaceGUID appBroker.name)).resources = []
    ∧ (SeedRepo.setAppAsService envNoMatch appBroker).2 = Outcome.crash :=
  ⟨rfl, (findAppGUID_empty_search_panics envNoMatch appBroker rfl).2.1⟩

/-- Helper: full trace and result of a successful route resolution: the app
search, the app detail fetch, the routes fetch and the domain fetch, in
that order, and the composed hostname. -/
theorem resolveRoute_ok_trace (env : Env) (app : App)
    (r : ApplicationResource) (rs : List ApplicationResource)
    (rt : RouteResource) (rts : List RouteResource)
    (hsearch : (env.appsSearch (appSearchQuery env.spaceGUID app.name)).resources
      = r :: rs)
    (hwf : (env.routesAt
      ((env.appAt ("/v2/apps/" ++ r.resource.metadata.guid)).entity.routesURL)).WellFormed)
    (hne : (env.routesAt
      ((env.appAt ("/v2/apps/" ++ r.resource.metadata.guid)).entity.routesURL)).resources
      = rt :: rts) :
    SeedRepo.resolveRoute env app =
      ([Call.curl (appSearchQuery env.spaceGUID app.name),
        Call.curl ("/v2/apps/" ++ r.resource.metadata.guid),
        Call.curl ((env.appAt ("/v2/apps/" ++ r.resource.metadata.guid)).entity.routesURL),
        Call.curl rt.entity.domainURL],
       Outcome.ok (if rt.entity.host ≠ "" then
          rt.entity.host ++ "." ++ (env.domainAt rt.entity.domainURL).entity.name
        else (env.domainAt rt.entity.domainURL).entity.name)) := by
  have hnz : (env.routesAt
      ((env.appAt ("/v2/apps/" ++ r.resource.metadata.guid)).entity.routesURL)).totalResults
      ≠ 0 := by
    rw [hwf, hne]; simp
  unfold SeedRepo.resolveRoute SeedRepo.getAppInfo SeedRepo.findAppGUID
    SeedRepo.findApp SeedRepo.firstAppRoute
  simp only [hsearch]
  simp only [hnz, hne, if_neg]
  by_cases hh : rt.entity.host = "" <;> simp [hh]

/-- Helper: `enableAccessLoop` on a single entry issues exactly the enable
call, whatever the platform answers. -/
theorem enableAccessLoop_single_trace (env : Env) (s : Service) :
    (enableAccessLoop env [s]).1 = [Call.cli (enableServiceAccessArgs s)] := by
  unfold enableAccessLoop SeedRepo.enableServiceAccess
  cases henv : env.cli (enableServiceAccessArgs s) <;> simp [henv, enableAccessLoop]

/-- Helper: the broker deletion call always carries `-f`, whatever the
platform answers. -/
theorem deleteServiceBroker_trace (env : Env) (b : ServiceBroker) :
    (SeedRepo.deleteServiceBroker env b).1
      = [Call.cli ["delete-service-broker", b.name, "-f"]] := by
  unfold SeedRepo.deleteServiceBroker
  cases henv : env.cli ["delete-service-broker", b.name, "-f"] <;> simp [henv]

/-- C4 counterexample (to the claim as stated): in the broker scenario —
one search match, one route, one access grant — registration issues four
read-only curl queries (app search, app detail, routes, domain), not
three. -/
theorem setAppAsService_four_queries_not_three :
    (SeedRepo.setAppAsService envOk appBroker).2 = Outcome.ok ()
    ∧ (SeedRepo.setAppAsService envOk appBroker).1.countP isCurl = 4
    ∧ ¬ ((SeedRepo.setAppAsService envOk appBroker).1.countP isCurl = 3) :=
  ⟨by decide, by decide, by decide⟩

/-- C4 (amended): in the broker-flagged application scenario (one search
match, a well-formed routes collection with a first route whose host is
non-empty, a single service-access entry with a plan and no org filter,
and a platform that accepts the broker creation), registration issues
exactly four read-only curl queries — app search, app detail, routes,
domain — followed by `create-service-broker` with name, username, password
and `https://` plus the resolved route, followed by
`enable-service-access` for the single entry with its `-p` plan flag. -/
theorem setAppAsService_queries_then_broker_then_access (env : Env) (app : App)
    (s : Service) (r : ApplicationResource) (rs : List ApplicationResource)
    (rt : RouteResource) (rts : List RouteResource)
    (hsearch : (env.appsSearch (appSearchQuery env.spaceGUID app.name)).resources
      = r :: rs)
    (hwf : (env.routesAt
      ((env.appAt ("/v2/apps/" ++ r.resource.metadata.guid)).entity.routesURL)).WellFormed)
    (hne : (env.routesAt
      ((env.appAt ("/v2/apps/" ++ r.resource.metadata.guid)).entity.routesURL)).resources
      = rt :: rts)
    (hhost : rt.entity.host ≠ "")
    (hacc : app.serviceAccess = [s])
    (hplan : s.plan ≠ "") (horg : s.org = "")
    (hcb : ∃ out, env.cli ["create-service-broker", app.serviceBroker.name,
      app.serviceBroker.username, app.serviceBroker.password,
      "https://" ++ (rt.entity.host ++ "." ++ (env.domainAt rt.entity.domainURL).entity.name)]
      = Except.ok out) :
    (SeedRepo.setAppAsService env app).1 =
      [Call.curl (appSearchQuery env.spaceGUID app.name),
       Call.curl ("/v2/apps/" ++ r.resource.metadata.guid),
       Call.curl ((env.appAt ("/v2/apps/" ++ r.resource.metadata.guid)).entity.routesURL),
       Call.curl rt.entity.domainURL,
       Call.cli ["create-service-broker", app.serviceBroker.name,
         app.serviceBroker.username, app.serviceBroker.password,
         "https://" ++ (rt.entity.host ++ "." ++ (env.domainAt rt.entity.domainURL).entity.name)],
       Call.cli ["enable-service-access", s.service, "-p", s.plan]]
    ∧ (SeedRepo.setAppAsService env app).1.countP isCurl = 4 := by
  obtain ⟨out, hout⟩ := hcb
  have hres := resolveRoute_ok_trace env app r rs rt rts hsearch hwf hne
  rw [if_pos hhost] at hres
  have hargs : enableServiceAccessArgs s = ["enable-service-access", s.service, "-p", s.plan] := by
    unfold enableServiceAccessArgs
    simp [hplan, horg]
  have htr : (SeedRepo.setAppAsService env app).1 =
      [Call.curl (appSearchQuery env.spaceGUID app.name),
       Call.curl ("/v2/apps/" ++ r.resource.metadata.guid),
       Call.curl ((env.appAt ("/v2/apps/" ++ r.resource.metadata.guid)).entity.routesURL),
       Call.curl rt.entity.domainURL,
       Call.cli ["create-service-broker", app.serviceBroker.name,
         app.serviceBroker.username, app.serviceBroker.password,
         "https://" ++ (rt.entity.host ++ "." ++ (env.domainAt rt.entity.domainURL).entity.name)],
       Call.cli ["enable-service-access", s.service, "-p", s.plan]] := by
    unfold SeedRepo.setAppAsService
    rw [hres]
    unfold SeedRepo.createServiceBroker
    simp only [hout, hacc]
    rw [← hargs]
    simp [enableAccessLoop_single_trace env s]
  refine ⟨htr, ?_⟩
  rw [htr]
  simp [List.countP_cons, List.countP_nil, isCurl]

theorem setAppAsService_queries_then_broker_then_access_witness :
    appBroker.serviceAccess = [⟨"", "s1", "free", ""⟩] ∧
    (SeedRepo.setAppAsService envOk appBroker).1.countP isCurl = 4 :=
  ⟨rfl, (setAppAsService_queries_then_broker_then_access envOk appBroker
      ⟨"", "s1", "free", ""⟩ ⟨⟨⟨"g1"⟩⟩⟩ [] ⟨⟨"myapp", "/v2/domains/d1"⟩⟩ []
      rfl (by decide) rfl (by decide) rfl (by decide) rfl ⟨[], rfl⟩).2⟩

/-- Helper: when every disable call succeeds, the `serviceAccess` loop of
`deleteAppAsService` issues exactly one disable call per entry, in list
order. -/
theorem disableAccessLoop_all_ok (env : Env) (l : List Service)
    (h : ∀ s ∈ l, ∃ out, env.cli (disableServiceAccessArgs s) = Except.ok out) :
    disableAccessLoop env l =
      (l.map (fun s => Call.cli (disableServiceAccessArgs s)), Outcome.ok ()) := by
  induction l with
  | nil => rfl
  | cons s rest ih =>
    obtain ⟨out, hout⟩ := h s (by simp)
    have hrest := ih (fun x hx => h x (by simp [hx]))
    unfold disableAccessLoop SeedRepo.disableServiceAccess
    simp [hout, hrest]

/-- C5: for a broker-flagged application whose route resolution succeeds and
whose disable calls are accepted, deregistration issues one
`disable-service-access` call per `serviceAccess` entry in list order, all
strictly before the `delete-service-broker` call, and the broker deletion
call always carries the force flag `-f` (the latter for every broker and
every platform answer). -/
theorem deleteAppAsService_disable_before_delete (env : Env) (app : App)
    (r : ApplicationResource) (rs : List ApplicationResource)
    (rt : RouteResource) (rts : List RouteResource)
    (hsearch : (env.appsSearch (appSearchQuery env.spaceGUID app.name)).resources
      = r :: rs)
    (hwf : (env.routesAt
      ((env.appAt ("/v2/apps/" ++ r.resource.metadata.guid)).entity.routesURL)).WellFormed)
    (hne : (env.routesAt
      ((env.appAt ("/v2/apps/" ++ r.resource.metadata.guid)).entity.routesURL)).resources
      = rt :: rts)
    (hdis : ∀ s ∈ app.serviceAccess,
      ∃ out, env.cli (disableServiceAccessArgs s) = Except.ok out) :
    (SeedRepo.deleteAppAsService env app).1 =
      [Call.curl (appSearchQuery env.spaceGUID app.name),
       Call.curl ("/v2/apps/" ++ r.resource.metadata.guid),
       Call.curl ((env.appAt ("/v2/apps/" ++ r.resource.metadata.guid)).entity.routesURL),
       Call.curl rt.entity.domainURL]
      ++ app.serviceAccess.map (fun s => Call.cli (disableServiceAccessArgs s))
      ++ [Call.cli ["delete-service-broker", app.serviceBroker.name, "-f"]]
    ∧ ∀ b : ServiceBroker, (SeedRepo.deleteServiceBroker env b).1
        = [Call.cli ["delete-service-broker", b.name, "-f"]] := by
  have hres := resolveRoute_ok_trace env app r rs rt rts hsearch hwf hne
  have hloop := disableAccessLoop_all_ok env app.serviceAccess hdis
  refine ⟨?_, fun b => deleteServiceBroker_trace env b⟩
  unfold SeedRepo.deleteAppAsService
  rw [hres]
  simp only [hloop]
  simp [deleteServiceBroker_trace env]

theorem deleteAppAsService_disable_before_delete_witness :
    (∀ s ∈ appBroker.serviceAccess,
      ∃ out, envOk.cli (disableServiceAccessArgs s) = Except.ok out) ∧
    (SeedRepo.deleteAppAsService envOk appBroker).1 =
      [Call.curl (appSearchQuery envOk.spaceGUID appBroker.name),
       Call.curl "/v2/apps/g1",
       Call.curl "/v2/apps/g1/routes",
       Call.curl "/v2/domains/d1"]
      ++ appBroker.serviceAccess.map (fun s => Call.cli (disableServiceAccessArgs s))
      ++ [Call.cli ["delete-service-broker", appBroker.serviceBroker.name, "-f"]] := by
  refine ⟨fun s _ => ⟨[], rfl⟩, ?_⟩
  have h := (deleteAppAsService_disable_before_delete envOk appBroker
    ⟨⟨⟨"g1"⟩⟩⟩ [] ⟨⟨"myapp", "/v2/domains/d1"⟩⟩ []
    rfl (by decide) rfl (fun s _ => ⟨[], rfl⟩)).1
  exact h.trans (by decide)

/-- C9 counterexample (to the claim as stated): in the broker scenario,
apply resolves the route `myapp.example.com` and passes
`https://myapp.example.com` to `create-service-broker`, yet when apply
returns, the broker url stored in the manifest is still the empty string:
the in-place url computation happens on a by-value copy of the
application (seed.go:335,341) and is never persisted. -/
theorem run_apply_broker_url_not_persisted :
    ((SeedPlugin.Run envOk false mSample).2.1).contains
        (Call.cli ["create-service-broker", "b1", "u", "p", "https://myapp.example.com"]) = true
    ∧ brokerUrls (SeedPlugin.Run envOk false mSample).1 = [""]
    ∧ ¬ (("" : String) = "https://myapp.example.com") :=
  ⟨by decide, by decide, by decide⟩

/-- C9 (amended): apply never mutates the stored manifest at all: whatever
the platform answers, `SeedPlugin.Run` in apply mode returns the loaded
manifest unchanged in every field, including every `ServiceBroker` url
(the url `https://` + resolved route is computed on a local copy of the
application and used only for the `create-service-broker` call). -/
theorem run_apply_manifest_unchanged (env : Env) (m : SeederManifest) :
    (SeedPlugin.Run env false m).1 = m := by
  unfold SeedPlugin.Run SeedRepo.createOrganizations SeedRepo.createSpaces
    SeedRepo.createApps SeedRepo.createServices
  simp only [Bool.false_eq_true, if_false]
  cases h1 : (SeedRepo.createOrgsLoop env m.organizations).2 with
  | ok a =>
    cases h2 : (SeedRepo.createSpacesLoop env m.organizations).2 with
    | ok b =>
      cases h3 : (createAppsLoop env m.organizations).2 with
      | ok c => simp [h1, h2, h3]
      | err e => simp [h1, h2, h3]
      | crash => simp [h1, h2, h3]
    | err e => simp [h1, h2]
    | crash => simp [h1, h2]
  | err e => simp [h1]
  | crash => simp [h1]

@[simp] theorem orgCmd_cli_cons (x : String) (l : List String) :
    orgCmd (Call.cli (x :: l)) = (x == "create-org" || x == "delete-org") := rfl

@[simp] theorem orgCmd_curl (p : String) : orgCmd (Call.curl p) = false := rfl

@[simp] theorem orgCmd_gitClone (u d : String) : orgCmd (Call.gitClone u d) = false := rfl

/-- Helper: a successful `createOrganizations` loop issues exactly one
`create-org` per organization, in manifest order. -/
theorem createOrgsLoop_ok_trace (env : Env) (l : List Organization)
    (h : (SeedRepo.createOrgsLoop env l).2 = Outcome.ok ()) :
    (SeedRepo.createOrgsLoop env l).1
      = l.map (fun o => Call.cli ["create-org", o.name]) := by
  induction l with
  | nil => rfl
  | cons org rest ih =>
    cases he : env.cli ["create-org", org.name] with
    | error e =>
      rw [SeedRepo.createOrgsLoop, he] at h
      exact absurd h (by simp)
    | ok out =>
      rw [SeedRepo.createOrgsLoop, he] at h
      rw [SeedRepo.createOrgsLoop, he]
      simp only [List.map_cons, List.cons.injEq, true_and]
      exact ih h

/-- Helper: a successful `deleteOrganizations` loop issues exactly one
forced `delete-org` per organization, in manifest order. -/
theorem deleteOrgsLoop_ok_trace (env : Env) (l : List Organization)
    (h : (SeedRepo.deleteOrgsLoop env l).2 = Outcome.ok ()) :
    (SeedRepo.deleteOrgsLoop env l).1
      = l.map (fun o => Call.cli ["delete-org", o.name, "-f"]) := by
  induction l with
  | nil => rfl
  | cons org rest ih =>
    cases he : env.cli ["delete-org", org.name, "-f"] with
    | error e =>
      rw [SeedRepo.deleteOrgsLoop, he] at h
      exact absurd h (by simp)
    | ok out =>
      rw [SeedRepo.deleteOrgsLoop, he] at h
      rw [SeedRepo.deleteOrgsLoop, he]
      simp only [List.map_cons, List.cons.injEq, true_and]
      exact ih h

/-- Helper: space creation issues no organization-level command. -/
theorem createSpacesInner_no_orgCmd (env : Env) (l : List Space) :
    ∀ c ∈ (SeedRepo.createSpacesInner env l).1, orgCmd c = false := by
  induction l with
  | nil => intro c hc; simp [SeedRepo.createSpacesInner] at hc
  | cons sp rest ih =>
    intro c hc
    cases he : env.cli ["create-space", sp.name] with
    | error e =>
      simp [SeedRepo.createSpacesInner, he] at hc
      subst hc; rfl
    | ok out =>
      simp [SeedRepo.createSpacesInner, he] at hc
      rcases hc with rfl | hc
      · rfl
      · exact ih c hc

/-- Helper: the `createSpaces` stage issues no organization-level command. -/
theorem createSpacesLoop_no_orgCmd (env : Env) (l : List Organization) :
    ∀ c ∈ (SeedRepo.createSpacesLoop env l).1, orgCmd c = false := by
  induction l with
  | nil => intro c hc; simp [SeedRepo.createSpacesLoop] at hc
  | cons org rest ih =>
    intro c hc
    cases ho : (SeedRepo.createSpacesInner env org.spaces).2 with
    | ok a =>
      simp [SeedRepo.createSpacesLoop, ho] at hc
      rcases hc with rfl | hc | hc
      · rfl
      · exact createSpacesInner_no_orgCmd env org.spaces c hc
      · exact ih c hc
    | err e =>
      simp [SeedRepo.createSpacesLoop, ho] at hc
      rcases hc with rfl | hc
      · rfl
      · exact createSpacesInner_no_orgCmd env org.spaces c hc
    | crash =>
      simp [SeedRepo.createSpacesLoop, ho] at hc
      rcases hc with rfl | hc
      · rfl
      · exact createSpacesInner_no_orgCmd env org.spaces c hc

/-- Helper: service creation issues no organization-level command. -/
theorem createServicesInner_no_orgCmd (env : Env) (l : List Service) :
    ∀ c ∈ (SeedRepo.createServicesInner env l).1, orgCmd c = false := by
  induction l with
  | nil => intro c hc; simp [SeedRepo.createServicesInner] at hc
  | cons s rest ih =>
    intro c hc
    cases he : env.cli ["create-service", s.service, s.plan, s.name] with
    | error e =>
      simp [SeedRepo.createServicesInner, he] at hc
      subst hc; rfl
    | ok out =>
      simp [SeedRepo.createServicesInner, he] at hc
      rcases hc with rfl | hc
      · rfl
      · exact ih c hc

/-- Helper: the space loop of `createServices` issues no organization-level
command. -/
theorem createServicesSpaces_no_orgCmd (env : Env) (orgName : String) (l : List Space) :
    ∀ c ∈ (SeedRepo.createServicesSpaces env orgName l).1, orgCmd c = false := by
  induction l with
  | nil => intro c hc; simp [SeedRepo.createServicesSpaces] at hc
  | cons sp rest ih =>
    intro c hc
    cases ho : (SeedRepo.createServicesInner env sp.services).2 with
    | ok a =>
      simp [SeedRepo.createServicesSpaces, ho] at hc
      rcases hc with rfl | hc | hc
      · rfl
      · exact createServicesInner_no_orgCmd env sp.services c hc
      · exact ih c hc
    | err e =>
      simp [SeedRepo.createServicesSpaces, ho] at hc
      rcases hc with rfl | hc
      · rfl
      · exact createServicesInner_no_orgCmd env sp.services c hc
    | crash =>
      simp [SeedRepo.createServicesSpaces, ho] at hc
      rcases hc with rfl | hc
      · rfl
      · exact createServicesInner_no_orgCmd env sp.services c hc

/-- Helper: the `createServices` stage issues no organization-level
command. -/
theorem createServicesLoop_no_orgCmd (env : Env) (l : List Organization) :
    ∀ c ∈ (SeedRepo.createServicesLoop env l).1, orgCmd c = false := by
  induction l with
  | nil => intro c hc; simp [SeedRepo.createServicesLoop] at hc
  | cons org rest ih =>
    intro c hc
    cases ho : (SeedRepo.createServicesSpaces env org.name org.spaces).2 with
    | ok a =>
      simp [SeedRepo.createServicesLoop, ho] at hc
      rcases hc with hc | hc
      · exact createServicesSpaces_no_orgCmd env org.name org.spaces c hc
      · exact ih c hc
    | err e =>
      simp [SeedRepo.createServicesLoop, ho] at hc
      exact createServicesSpaces_no_orgCmd env org.name org.spaces c hc
    | crash =>
      simp [SeedRepo.createServicesLoop, ho] at hc
      exact createServicesSpaces_no_orgCmd env org.name org.spaces c hc

/-- Helper: space deletion issues no organization-level command. -/
theorem deleteSpacesInner_no_orgCmd (env : Env) (l : List Space) :
    ∀ c ∈ (SeedRepo.deleteSpacesInner env l).1, orgCmd c = false := by
  induction l with
  | nil => intro c hc; simp [SeedRepo.deleteSpacesInner] at hc
  | cons sp rest ih =>
    intro c hc
    cases he : env.cli ["delete-space", sp.name, "-f"] with
    | error e =>
      simp [SeedRepo.deleteSpacesInner, he] at hc
      subst hc; rfl
    | ok out =>
      simp [SeedRepo.deleteSpacesInner, he] at hc
      rcases hc with rfl | hc
      · rfl
      · exact ih c hc

/-- Helper: the `deleteSpaces` stage issues no organization-level command. -/
theorem deleteSpacesLoop_no_orgCmd (env : Env) (l : List Organization) :
    ∀ c ∈ (SeedRepo.deleteSpacesLoop env l).1, orgCmd c = false := by
  induction l with
  | nil => intro c hc; simp [SeedRepo.deleteSpacesLoop] at hc
  | cons org rest ih =>
    intro c hc
    cases ho : (SeedRepo.deleteSpacesInner env org.spaces).2 with
    | ok a =>
      simp [SeedRepo.deleteSpacesLoop, ho] at hc
      rcases hc with rfl | hc | hc
      · rfl
      · exact deleteSpacesInner_no_orgCmd env org.spaces c hc
      · exact ih c hc
    | err e =>
      simp [SeedRepo.deleteSpacesLoop, ho] at hc
      rcases hc with rfl | hc
      · rfl
      · exact deleteSpacesInner_no_orgCmd env org.spaces c hc
    | crash =>
      simp [SeedRepo.deleteSpacesLoop, ho] at hc
      rcases hc with rfl | hc
      · rfl
      · exact deleteSpacesInner_no_orgCmd env org.spaces c hc

/-- Helper: service deletion issues no organization-level command. -/
theorem deleteServicesInner_no_orgCmd (env : Env) (l : List Service) :
    ∀ c ∈ (SeedRepo.deleteServicesInner env l).1, orgCmd c = false := by
  induction l with
  | nil => intro c hc; simp [SeedRepo.deleteServicesInner] at hc
  | cons s rest ih =>
    intro c hc
    cases he : env.cli ["delete-service", s.name, "-f"] with
    | error e =>
      simp [SeedRepo.deleteServicesInner, he] at hc
      subst hc; rfl
    | ok out =>
      simp [SeedRepo.deleteServicesInner, he] at hc
      rcases hc with rfl | hc
      · rfl
      · exact ih c hc

/-- Helper: the space loop of `deleteServices` issues no organization-level
command. -/
theorem deleteServicesSpaces_no_orgCmd (env : Env) (orgName : String) (l : List Space) :
    ∀ c ∈ (SeedRepo.deleteServicesSpaces env orgName l).1, orgCmd c = false := by
  induction l with
  | nil => intro c hc; simp [SeedRepo.deleteServicesSpaces] at hc
  | cons sp rest ih =>
    intro c hc
    cases ho : (SeedRepo.deleteServicesInner env sp.services).2 with
    | ok a =>
      simp [SeedRepo.deleteServicesSpaces, ho] at hc
      rcases hc with rfl | hc | hc
      · rfl
      · exact deleteServicesInner_no_orgCmd env sp.services c hc
      · exact ih c hc
    | err e =>
      simp [SeedRepo.deleteServicesSpaces, ho] at hc
      rcases hc with rfl | hc
      · rfl
      · exact deleteServicesInner_no_orgCmd env sp.services c hc
    | crash =>
      simp [SeedRepo.deleteServicesSpaces, ho] at hc
      rcases hc with rfl | hc
      · rfl
      · exact deleteServicesInner_no_orgCmd env sp.services c hc

/-- Helper: the `deleteServices` stage issues no organization-level
command. -/
theorem deleteServicesLoop_no_orgCmd (env : Env) (l : List Organization) :
    ∀ c ∈ (SeedRepo.deleteServicesLoop env l).1, orgCmd c = false := by
  induction l with
  | nil => intro c hc; simp [SeedRepo.deleteServicesLoop] at hc
  | cons org rest ih =>
    intro c hc
    cases ho : (SeedRepo.deleteServicesSpaces env org.name org.spaces).2 with
    | ok a =>
      simp [SeedRepo.deleteServicesLoop, ho] at hc
      rcases hc with hc | hc
      · exact deleteServicesSpaces_no_orgCmd env org.name org.spaces c hc
      · exact ih c hc
    | err e =>
      simp [SeedRepo.deleteServicesLoop, ho] at hc
      exact deleteServicesSpaces_no_orgCmd env org.name org.spaces c hc
    | crash =>
      simp [SeedRepo.deleteServicesLoop, ho] at hc
      exact deleteServicesSpaces_no_orgCmd env org.name org.spaces c hc

/-- Helper: deployment issues no organization-level command. -/
theorem deployApp_no_orgCmd (env : Env) (app : App) :
    ∀ c ∈ (SeedRepo.deployApp env app).1, orgCmd c = false := by
  intro c hc
  unfold SeedRepo.deployApp at hc
  by_cases h1 : app.repo = ""
  · simp only [h1, ne_eq, not_true_eq_false, if_false, ite_not] at hc
    by_cases h2 : app.path = ""
    · simp [h2] at hc
    · simp [h2] at hc
      subst hc; rfl
  · simp only [ne_eq, h1, not_false_eq_true, if_true] at hc
    by_cases h2 : (env.readDir (env.cwd ++ "/apps/" ++ app.name)).length = 0
    · simp only [h2, if_true] at hc
      cases hg : env.lookPathGit with
      | error e => rw [hg] at hc; simp at hc
      | ok g =>
        rw [hg] at hc
        cases hr : env.gitCloneRun app.repo (env.cwd ++ "/apps/" ++ app.name) with
        | error e =>
          rw [hr] at hc
          simp at hc
          subst hc; rfl
        | ok u =>
          rw [hr] at hc
          simp at hc
          rcases hc with rfl | rfl <;> rfl
    · simp only [h2, if_false] at hc
      simp at hc
      subst hc; rfl

/-- Helper: the route fetch part of resolution issues only curl queries,
hence no organization-level command. -/
theorem firstAppRoute_no_orgCmd (env : Env) (a : RetrieveAParticularApp) :
    ∀ c ∈ (SeedRepo.firstAppRoute env a).1, orgCmd c = false := by
  intro c hc
  unfold SeedRepo.firstAppRoute at hc
  by_cases h0 : (env.routesAt a.entity.routesURL).totalResults = 0
  · simp [h0] at hc
    subst hc; rfl
  · cases hr : (env.routesAt a.entity.routesURL).resources with
    | nil =>
      simp [h0, hr] at hc
      subst hc; rfl
    | cons rt rts =>
      by_cases hh : rt.entity.host = ""
      · simp [h0, hr, hh] at hc
        rcases hc with rfl | rfl <;> rfl
      · simp [h0, hr, hh] at hc
        rcases hc with rfl | rfl <;> rfl

/-- Helper: route resolution issues only curl queries, hence no
organization-level command. -/
theorem resolveRoute_no_orgCmd (env : Env) (app : App) :
    ∀ c ∈ (SeedRepo.resolveRoute env app).1, orgCmd c = false := by
  intro c hc
  unfold SeedRepo.resolveRoute SeedRepo.getAppInfo SeedRepo.findAppGUID
    SeedRepo.findApp at hc
  cases hs : (env.appsSearch (appSearchQuery env.spaceGUID app.name)).resources with
  | nil =>
    simp [hs] at hc
    subst hc; rfl
  | cons r rs =>
    simp [hs] at hc
    rcases hc with rfl | rfl | hc
    · rfl
    · rfl
    · exact firstAppRoute_no_orgCmd env _ c hc

/-- Helper: broker creation issues no organization-level command. -/
theorem createServiceBroker_no_orgCmd (env : Env) (b : ServiceBroker) :
    ∀ c ∈ (SeedRepo.createServiceBroker env b).1, orgCmd c = false := by
  intro c hc
  unfold SeedRepo.createServiceBroker at hc
  cases he : env.cli ["create-service-broker", b.name, b.username, b.password, b.url] with
  | error e => simp [he] at hc; subst hc; rfl
  | ok out => simp [he] at hc; subst hc; rfl

/-- Helper: broker deletion issues no organization-level command. -/
theorem deleteServiceBroker_no_orgCmd (env : Env) (b : ServiceBroker) :
    ∀ c ∈ (SeedRepo.deleteServiceBroker env b).1, orgCmd c = false := by
  intro c hc
  rw [deleteServiceBroker_trace env b] at hc
  simp at hc
  subst hc; rfl

/-- Helper: enabling access issues no organization-level command. -/
theorem enableAccessLoop_no_orgCmd (env : Env) (l : List Service) :
    ∀ c ∈ (enableAccessLoop env l).1, orgCmd c = false := by
  induction l with
  | nil => intro c hc; simp [enableAccessLoop] at hc
  | cons s rest ih =>
    intro c hc
    have hhead : orgCmd (Call.cli (enableServiceAccessArgs s)) = false := rfl
    cases he : env.cli (enableServiceAccessArgs s) with
    | error e =>
      simp [enableAccessLoop, SeedRepo.enableServiceAccess, he] at hc
      subst hc; exact hhead
    | ok out =>
      simp [enableAccessLoop, SeedRepo.enableServiceAccess, he] at hc
      rcases hc with rfl | hc
      · exact hhead
      · exact ih c hc

/-- Helper: disabling access issues no organization-level command. -/
theorem disableAccessLoop_no_orgCmd (env : Env) (l : List Service) :
    ∀ c ∈ (disableAccessLoop env l).1, orgCmd c = false := by
  induction l with
  | nil => intro c hc; simp [disableAccessLoop] at hc
  | cons s rest ih =>
    intro c hc
    have hhead : orgCmd (Call.cli (disableServiceAccessArgs s)) = false := rfl
    cases he : env.cli (disableServiceAccessArgs s) with
    | error e =>
      simp [disableAccessLoop, SeedRepo.disableServiceAccess, he] at hc
      subst hc; exact hhead
    | ok out =>
      simp [disableAccessLoop, SeedRepo.disableServiceAccess, he] at hc
      rcases hc with rfl | hc
      · exact hhead
      · exact ih c hc

/-- Helper: broker registration issues no organization-level command. -/
theorem setAppAsService_no_orgCmd (env : Env) (app : App) :
    ∀ c ∈ (SeedRepo.setAppAsService env app).1, orgCmd c = false := by
  intro c hc
  unfold SeedRepo.setAppAsService at hc
  cases hres : SeedRepo.resolveRoute env app with
  | mk t o =>
    have htr : (SeedRepo.resolveRoute env app).1 = t := by rw [hres]
    rw [hres] at hc
    cases o with
    | ok route =>
      cases hcb : SeedRepo.createServiceBroker env
          { name := app.serviceBroker.name, username := app.serviceBroker.username,
            password := app.serviceBroker.password, url := "https://" ++ route } with
      | mk t2 o2 =>
        have htr2 : (SeedRepo.createServiceBroker env
            { name := app.serviceBroker.name, username := app.serviceBroker.username,
              password := app.serviceBroker.password, url := "https://" ++ route }).1 = t2 := by
          rw [hcb]
        simp only [hcb] at hc
        cases o2 with
        | ok u =>
          simp at hc
          rcases hc with hc | hc | hc
          · exact resolveRoute_no_orgCmd env app c (htr ▸ hc)
          · exact createServiceBroker_no_orgCmd env _ c (htr2 ▸ hc)
          · exact enableAccessLoop_no_orgCmd env _ c hc
        | err e =>
          simp at hc
          rcases hc with hc | hc
          · exact resolveRoute_no_orgCmd env app c (htr ▸ hc)
          · exact createServiceBroker_no_orgCmd env _ c (htr2 ▸ hc)
        | crash =>
          simp at hc
          rcases hc with hc | hc
          · exact resolveRoute_no_orgCmd env app c (htr ▸ hc)
          · exact createServiceBroker_no_orgCmd env _ c (htr2 ▸ hc)
    | err e =>
      simp at hc
      exact resolveRoute_no_orgCmd env app c (htr ▸ hc)
    | crash =>
      simp at hc
      exact resolveRoute_no_orgCmd env app c (htr ▸ hc)

/-- Helper: broker deregistration issues no organization-level command. -/
theorem deleteAppAsService_no_orgCmd (env : Env) (app : App) :
    ∀ c ∈ (SeedRepo.deleteAppAsService env app).1, orgCmd c = false := by
  intro c hc
  unfold SeedRepo.deleteAppAsService at hc
  cases hres : SeedRepo.resolveRoute env app with
  | mk t o =>
    have htr : (SeedRepo.resolveRoute env app).1 = t := by rw [hres]
    rw [hres] at hc
    cases o with
    | ok route =>
      cases hdl : disableAccessLoop env app.serviceAccess with
      | mk t2 o2 =>
        have htr2 : (disableAccessLoop env app.serviceAccess).1 = t2 := by rw [hdl]
        simp only [hdl] at hc
        cases o2 with
        | ok u =>
          simp at hc
          rcases hc with hc | hc | hc
          · exact resolveRoute_no_orgCmd env app c (htr ▸ hc)
          · exact disableAccessLoop_no_orgCmd env _ c (htr2 ▸ hc)
          · exact deleteServiceBroker_no_orgCmd env _ c hc
        | err e =>
          simp at hc
          rcases hc with hc | hc
          · exact resolveRoute_no_orgCmd env app c (htr ▸ hc)
          · exact disableAccessLoop_no_orgCmd env _ c (htr2 ▸ hc)
        | crash =>
          simp at hc
          rcases hc with hc | hc
          · exact resolveRoute_no_orgCmd env app c (htr ▸ hc)
          · exact disableAccessLoop_no_orgCmd env _ c (htr2 ▸ hc)
    | err e =>
      simp at hc
      exact resolveRoute_no_orgCmd env app c (htr ▸ hc)
    | crash =>
      simp at hc
      exact resolveRoute_no_orgCmd env app c (htr ▸ hc)

/-- Helper: application deletion issues no organization-level command. -/
theorem deleteApp_no_orgCmd (env : Env) (app : App) :
    ∀ c ∈ (SeedRepo.deleteApp env app).1, orgCmd c = false := by
  intro c hc
  unfold SeedRepo.deleteApp at hc
  cases he : env.cli ["delete", app.name, "-f", "-r"] with
  | error e => simp [he] at hc; subst hc; rfl
  | ok out => simp [he] at hc; subst hc; rfl

/-- Helper: the app loop of `createApps` issues no organization-level
command. -/
theorem createAppsApps_no_orgCmd (env : Env) (l : List App) :
    ∀ c ∈ (createAppsApps env l).1, orgCmd c = false := by
  induction l with
  | nil => intro c hc; simp [createAppsApps] at hc
  | cons app rest ih =>
    intro c hc
    cases hd : SeedRepo.deployApp env app with
    | mk t o =>
      have htd : (SeedRepo.deployApp env app).1 = t := by rw [hd]
      cases o with
      | ok a =>
        by_cases hb : app.serviceBroker = emptyServiceBroker
        · simp [createAppsApps, hd, hb] at hc
          rcases hc with hc | hc
          · exact deployApp_no_orgCmd env app c (htd ▸ hc)
          · exact ih c hc
        · cases hs : SeedRepo.setAppAsService env app with
          | mk t2 o2 =>
            have hts : (SeedRepo.setAppAsService env app).1 = t2 := by rw [hs]
            cases o2 with
            | ok b =>
              simp [createAppsApps, hd, hb, hs] at hc
              rcases hc with hc | hc | hc
              · exact deployApp_no_orgCmd env app c (htd ▸ hc)
              · exact setAppAsService_no_orgCmd env app c (hts ▸ hc)
              · exact ih c hc
            | err e =>
              simp [createAppsApps, hd, hb, hs] at hc
              rcases hc with hc | hc
              · exact deployApp_no_orgCmd env app c (htd ▸ hc)
              · exact setAppAsService_no_orgCmd env app c (hts ▸ hc)
            | crash =>
              simp [createAppsApps, hd, hb, hs] at hc
              rcases hc with hc | hc
              · exact deployApp_no_orgCmd env app c (htd ▸ hc)
              · exact setAppAsService_no_orgCmd env app c (hts ▸ hc)
      | err e =>
        simp [createAppsApps, hd] at hc
        exact deployApp_no_orgCmd env app c (htd ▸ hc)
      | crash =>
        simp [createAppsApps, hd] at hc
        exact deployApp_no_orgCmd env app c (htd ▸ hc)

/-- Helper: the space loop of `createApps` issues no organization-level
command. -/
theorem createAppsSpaces_no_orgCmd (env : Env) (orgName : String) (l : List Space) :
    ∀ c ∈ (createAppsSpaces env orgName l).1, orgCmd c = false := by
  induction l with
  | nil => intro c hc; simp [createAppsSpaces] at hc
  | cons sp rest ih =>
    intro c hc
    cases ho : (createAppsApps env sp.apps).2 with
    | ok a =>
      simp [createAppsSpaces, ho] at hc
      rcases hc with rfl | hc | hc
      · rfl
      · exact createAppsApps_no_orgCmd env sp.apps c hc
      · exact ih c hc
    | err e =>
      simp [createAppsSpaces, ho] at hc
      rcases hc with rfl | hc
      · rfl
      · exact createAppsApps_no_orgCmd env sp.apps c hc
    | crash =>
      simp [createAppsSpaces, ho] at hc
      rcases hc with rfl | hc
      · rfl
      · exact createAppsApps_no_orgCmd env sp.apps c hc

/-- Helper: the `createApps` stage issues no organization-level command. -/
theorem createAppsLoop_no_orgCmd (env : Env) (l : List Organization) :
    ∀ c ∈ (createAppsLoop env l).1, orgCmd c = false := by
  induction l with
  | nil => intro c hc; simp [createAppsLoop] at hc
  | cons org rest ih =>
    intro c hc
    cases ho : (createAppsSpaces env org.name org.spaces).2 with
    | ok a =>
      simp [createAppsLoop, ho] at hc
      rcases hc with hc | hc
      · exact createAppsSpaces_no_orgCmd env org.name org.spaces c hc
      · exact ih c hc
    | err e =>
      simp [createAppsLoop, ho] at hc
      exact createAppsSpaces_no_orgCmd env org.name org.spaces c hc
    | crash =>
      simp [createAppsLoop, ho] at hc
      exact createAppsSpaces_no_orgCmd env org.name org.spaces c hc

/-- Helper: the app loop of `deleteApps` issues no organization-level
command. -/
theorem deleteAppsApps_no_orgCmd (env : Env) (l : List App) :
    ∀ c ∈ (deleteAppsApps env l).1, orgCmd c = false := by
  induction l with
  | nil => intro c hc; simp [deleteAppsApps] at hc
  | cons app rest ih =>
    intro c hc
    have hpre : ∀ x ∈ (if app.serviceBroker = emptyServiceBroker then
        (([] : List Call), Outcome.ok ()) else SeedRepo.deleteAppAsService env app).1,
        orgCmd x = false := by
      by_cases hb : app.serviceBroker = emptyServiceBroker
      · simp [hb]
      · simp only [hb, if_false]
        exact deleteAppAsService_no_orgCmd env app
    cases hp : (if app.serviceBroker = emptyServiceBroker then
        (([] : List Call), Outcome.ok ()) else SeedRepo.deleteAppAsService env app).2 with
    | ok a =>
      cases hd : SeedRepo.deleteApp env app with
      | mk t o =>
        have htd : (SeedRepo.deleteApp env app).1 = t := by rw [hd]
        cases o with
        | ok b =>
          simp [deleteAppsApps, hp, hd] at hc
          rcases hc with hc | hc | hc
          · exact hpre c hc
          · exact deleteApp_no_orgCmd env app c (htd ▸ hc)
          · exact ih c hc
        | err e =>
          simp [deleteAppsApps, hp, hd] at hc
          rcases hc with hc | hc
          · exact hpre c hc
          · exact deleteApp_no_orgCmd env app c (htd ▸ hc)
        | crash =>
          simp [deleteAppsApps, hp, hd] at hc
          rcases hc with hc | hc
          · exact hpre c hc
          · exact deleteApp_no_orgCmd env app c (htd ▸ hc)
    | err e =>
      simp [deleteAppsApps, hp] at hc
      exact hpre c hc
    | crash =>
      simp [deleteAppsApps, hp] at hc
      exact hpre c hc

/-- Helper: the space loop of `deleteApps` issues no organization-level
command. -/
theorem deleteAppsSpaces_no_orgCmd (env : Env) (orgName : String) (l : List Space) :
    ∀ c ∈ (deleteAppsSpaces env orgName l).1, orgCmd c = false := by
  induction l with
  | nil => intro c hc; simp [deleteAppsSpaces] at hc
  | cons sp rest ih =>
    intro c hc
    cases ho : (deleteAppsApps env sp.apps).2 with
    | ok a =>
      simp [deleteAppsSpaces, ho] at hc
      rcases hc with rfl | hc | hc
      · rfl
      · exact deleteAppsApps_no_orgCmd env sp.apps c hc
      · exact ih c hc
    | err e =>
      simp [deleteAppsSpaces, ho] at hc
      rcases hc with rfl | hc
      · rfl
      · exact deleteAppsApps_no_orgCmd env sp.apps c hc
    | crash =>
      simp [deleteAppsSpaces, ho] at hc
      rcases hc with rfl | hc
      · rfl
      · exact deleteAppsApps_no_orgCmd env sp.apps c hc

/-- Helper: the `deleteApps` stage issues no organization-level command. -/
theorem deleteAppsLoop_no_orgCmd (env : Env) (l : List Organization) :
    ∀ c ∈ (deleteAppsLoop env l).1, orgCmd c = false := by
  induction l with
  | nil => intro c hc; simp [deleteAppsLoop] at hc
  | cons org rest ih =>
    intro c hc
    cases ho : (deleteAppsSpaces env org.name org.spaces).2 with
    | ok a =>
      simp [deleteAppsLoop, ho] at hc
      rcases hc with hc | hc
      · exact deleteAppsSpaces_no_orgCmd env org.name org.spaces c hc
      · exact ih c hc
    | err e =>
      simp [deleteAppsLoop, ho] at hc
      exact deleteAppsSpaces_no_orgCmd env org.name org.spaces c hc
    | crash =>
      simp [deleteAppsLoop, ho] at hc
      exact deleteAppsSpaces_no_orgCmd env org.name org.spaces c hc

/-- Helper: a trace with no organization-level command has no `create-org`
and no `delete-org` entries. -/
theorem filter_isCreateOrg_nil {t : List Call}
    (h : ∀ c ∈ t, orgCmd c = false) : t.filter isCreateOrg = [] := by
  refine List.filter_eq_nil_iff.mpr (fun a ha => ?_)
  have hb := h a ha
  unfold orgCmd at hb
  simp only [Bool.or_eq_false_iff] at hb
  simp [hb.1]

theorem filter_isDeleteOrg_nil {t : List Call}
    (h : ∀ c ∈ t, orgCmd c = false) : t.filter isDeleteOrg = [] := by
  refine List.filter_eq_nil_iff.mpr (fun a ha => ?_)
  have hb := h a ha
  unfold orgCmd at hb
  simp only [Bool.or_eq_false_iff] at hb
  simp [hb.2]

/-- Helper: `deleteApp` issues exactly the forced delete call, whatever the
platform answers. -/
theorem deleteApp_trace (env : Env) (app : App) :
    (SeedRepo.deleteApp env app).1 = [Call.cli ["delete", app.name, "-f", "-r"]] := by
  unfold SeedRepo.deleteApp
  cases he : env.cli ["delete", app.name, "-f", "-r"] <;> simp [he]

/-- Helper: a successful space-deletion inner loop contains the forced
delete call of every space. -/
theorem deleteSpacesInner_mem (env : Env) (l : List Space)
    (h : (SeedRepo.deleteSpacesInner env l).2 = Outcome.ok ()) :
    ∀ sp ∈ l, Call.cli ["delete-space", sp.name, "-f"]
      ∈ (SeedRepo.deleteSpacesInner env l).1 := by
  induction l with
  | nil => intro sp hsp; simp at hsp
  | cons a rest ih =>
    intro sp hsp
    cases he : env.cli ["delete-space", a.name, "-f"] with
    | error e => simp [SeedRepo.deleteSpacesInner, he] at h
    | ok out =>
      simp only [SeedRepo.deleteSpacesInner, he] at h ⊢
      rcases List.mem_cons.mp hsp with rfl | hsp
      · exact List.mem_cons_self _ _
      · exact List.mem_cons_of_mem _ (ih h sp hsp)

/-- Helper: a successful `deleteSpaces` stage contains the forced delete
call of every space of every organization. -/
theorem deleteSpacesLoop_mem (env : Env) (l : List Organization)
    (h : (SeedRepo.deleteSpacesLoop env l).2 = Outcome.ok ()) :
    ∀ org ∈ l, ∀ sp ∈ org.spaces, Call.cli ["delete-space", sp.name, "-f"]
      ∈ (SeedRepo.deleteSpacesLoop env l).1 := by
  induction l with
  | nil => intro org horg; simp at horg
  | cons a rest ih =>
    intro org horg sp hsp
    cases ho : (SeedRepo.deleteSpacesInner env a.spaces).2 with
    | ok u =>
      simp only [SeedRepo.deleteSpacesLoop, ho] at h ⊢
      rcases List.mem_cons.mp horg with rfl | horg
      · exact List.mem_cons_of_mem _
          (List.mem_append_left _ (deleteSpacesInner_mem env org.spaces ho sp hsp))
      · exact List.mem_cons_of_mem _
          (List.mem_append_right _ (ih h org horg sp hsp))
    | err e => simp [SeedRepo.deleteSpacesLoop, ho] at h
    | crash => simp [SeedRepo.deleteSpacesLoop, ho] at h

/-- Helper: a successful service-deletion inner loop contains the forced
delete call of every service. -/
theorem deleteServicesInner_mem (env : Env) (l : List Service)
    (h : (SeedRepo.deleteServicesInner env l).2 = Outcome.ok ()) :
    ∀ s ∈ l, Call.cli ["delete-service", s.name, "-f"]
      ∈ (SeedRepo.deleteServicesInner env l).1 := by
  induction l with
  | nil => intro s hs; simp at hs
  | cons a rest ih =>
    intro s hs
    cases he : env.cli ["delete-service", a.name, "-f"] with
    | error e => simp [SeedRepo.deleteServicesInner, he] at h
    | ok out =>
      simp only [SeedRepo.deleteServicesInner, he] at h ⊢
      rcases List.mem_cons.mp hs with rfl | hs
      · exact List.mem_cons_self _ _
      · exact List.mem_cons_of_mem _ (ih h s hs)

/-- Helper: a successful space loop of `deleteServices` contains the forced
delete call of every service of every space. -/
theorem deleteServicesSpaces_mem (env : Env) (orgName : String) (l : List Space)
    (h : (SeedRepo.deleteServicesSpaces env orgName l).2 = Outcome.ok ()) :
    ∀ sp ∈ l, ∀ s ∈ sp.services, Call.cli ["delete-service", s.name, "-f"]
      ∈ (SeedRepo.deleteServicesSpaces env orgName l).1 := by
  induction l with
  | nil => intro sp hsp; simp at hsp
  | cons a rest ih =>
    intro sp hsp s hs
    cases ho : (SeedRepo.deleteServicesInner env a.services).2 with
    | ok u =>
      simp only [SeedRepo.deleteServicesSpaces, ho] at h ⊢
      rcases List.mem_cons.mp hsp with rfl | hsp
      · exact List.mem_cons_of_mem _
          (List.mem_append_left _ (deleteServicesInner_mem env sp.services ho s hs))
      · exact List.mem_cons_of_mem _
          (List.mem_append_right _ (ih h sp hsp s hs))
    | err e => simp [SeedRepo.deleteServicesSpaces, ho] at h
    | crash => simp [SeedRepo.deleteServicesSpaces, ho] at h

/-- Helper: a successful `deleteServices` stage contains the forced delete
call of every service of the manifest. -/
theorem deleteServicesLoop_mem (env : Env) (l : List Organization)
    (h : (SeedRepo.deleteServicesLoop env l).2 = Outcome.ok ()) :
    ∀ org ∈ l, ∀ sp ∈ org.spaces, ∀ s ∈ sp.services,
      Call.cli ["delete-service", s.name, "-f"]
        ∈ (SeedRepo.deleteServicesLoop env l).1 := by
  induction l with
  | nil => intro org horg; simp at horg
  | cons a rest ih =>
    intro org horg sp hsp s hs
    cases ho : (SeedRepo.deleteServicesSpaces env a.name a.spaces).2 with
    | ok u =>
      simp only [SeedRepo.deleteServicesLoop, ho] at h ⊢
      rcases List.mem_cons.mp horg with rfl | horg
      · exact List.mem_append_left _
          (deleteServicesSpaces_mem env org.name org.spaces ho sp hsp s hs)
      · exact List.mem_append_right _ (ih h org horg sp hsp s hs)
    | err e => simp [SeedRepo.deleteServicesLoop, ho] at h
    | crash => simp [SeedRepo.deleteServicesLoop, ho] at h

/-- Helper: a successful app loop of `deleteApps` contains the forced
delete call of every application. -/
theorem deleteAppsApps_mem (env : Env) (l : List App)
    (h : (deleteAppsApps env l).2 = Outcome.ok ()) :
    ∀ app ∈ l, Call.cli ["delete", app.name, "-f", "-r"]
      ∈ (deleteAppsApps env l).1 := by
  induction l with
  | nil => intro app happ; simp at happ
  | cons a rest ih =>
    intro app happ
    cases hp : (if a.serviceBroker ≠ emptyServiceBroker then
        SeedRepo.deleteAppAsService env a else (([] : List Call), Outcome.ok ())).2 with
    | ok u =>
      cases hd : SeedRepo.deleteApp env a with
      | mk t o =>
        have htd : t = [Call.cli ["delete", a.name, "-f", "-r"]] := by
          have hgen := deleteApp_trace env a
          rw [hd] at hgen
          exact hgen
        cases o with
        | ok b =>
          simp only [deleteAppsApps, hp, hd] at h ⊢
          rcases List.mem_cons.mp happ with rfl | happ
          · exact List.mem_append_left _ (List.mem_append_right _ (by simp [htd]))
          · exact List.mem_append_right _ (ih h app happ)
        | err e =>
          simp only [deleteAppsApps, hp, hd] at h
          simp at h
        | crash =>
          simp only [deleteAppsApps, hp, hd] at h
          simp at h
    | err e =>
      simp only [deleteAppsApps, hp] at h
      simp at h
    | crash =>
      simp only [deleteAppsApps, hp] at h
      simp at h

/-- Helper: a successful space loop of `deleteApps` contains the forced
delete call of every application of every space. -/
theorem deleteAppsSpaces_mem (env : Env) (orgName : String) (l : List Space)
    (h : (deleteAppsSpaces env orgName l).2 = Outcome.ok ()) :
    ∀ sp ∈ l, ∀ app ∈ sp.apps, Call.cli ["delete", app.name, "-f", "-r"]
      ∈ (deleteAppsSpaces env orgName l).1 := by
  induction l with
  | nil => intro sp hsp; simp at hsp
  | cons a rest ih =>
    intro sp hsp app happ
    cases ho : (deleteAppsApps env a.apps).2 with
    | ok u =>
      simp only [deleteAppsSpaces, ho] at h ⊢
      rcases List.mem_cons.mp hsp with rfl | hsp
      · exact List.mem_cons_of_mem _
          (List.mem_append_left _ (deleteAppsApps_mem env sp.apps ho app happ))
      · exact List.mem_cons_of_mem _
          (List.mem_append_right _ (ih h sp hsp app happ))
    | err e => simp [deleteAppsSpaces, ho] at h
    | crash => simp [deleteAppsSpaces, ho] at h

/-- Helper: a successful `deleteApps` stage contains the forced delete call
of every application of the manifest. -/
theorem deleteAppsLoop_mem (env : Env) (l : List Organization)
    (h : (deleteAppsLoop env l).2 = Outcome.ok ()) :
    ∀ org ∈ l, ∀ sp ∈ org.spaces, ∀ app ∈ sp.apps,
      Call.cli ["delete", app.name, "-f", "-r"] ∈ (deleteAppsLoop env l).1 := by
  induction l with
  | nil => intro org horg; simp at horg
  | cons a rest ih =>
    intro org horg sp hsp app happ
    cases ho : (deleteAppsSpaces env a.name a.spaces).2 with
    | ok u =>
      simp only [deleteAppsLoop, ho] at h ⊢
      rcases List.mem_cons.mp horg with rfl | horg
      · exact List.mem_append_left _
          (deleteAppsSpaces_mem env org.name org.spaces ho sp hsp app happ)
      · exact List.mem_append_right _ (ih h org horg sp hsp app happ)
    | err e => simp [deleteAppsLoop, ho] at h
    | crash => simp [deleteAppsLoop, ho] at h

theorem isDeleteOrg_false_of_orgCmd {c : Call} (h : orgCmd c = false) :
    isDeleteOrg c = false := by
  unfold orgCmd at h
  exact (Bool.or_eq_false_iff.mp h).2

/-- Helper: under a successful apply run, the `create-org` calls of the full
trace are exactly one per organization, in manifest order. -/
theorem run_apply_createOrg_order (env : Env) (m : SeederManifest)
    (ha : (SeedPlugin.Run env false m).2.2 = Outcome.ok ()) :
    (SeedPlugin.Run env false m).2.1.filter isCreateOrg
      = m.organizations.map (fun o => Call.cli ["create-org", o.name]) := by
  unfold SeedPlugin.Run SeedRepo.createOrganizations SeedRepo.createSpaces
    SeedRepo.createApps SeedRepo.createServices at ha ⊢
  simp only [Bool.false_eq_true, if_false] at ha ⊢
  cases h1 : (SeedRepo.createOrgsLoop env m.organizations).2 with
  | ok a =>
    simp only [h1] at ha ⊢
    cases h2 : (SeedRepo.createSpacesLoop env m.organizations).2 with
    | ok b =>
      simp only [h2] at ha ⊢
      cases h3 : (createAppsLoop env m.organizations).2 with
      | ok c =>
        simp only [h3] at ha ⊢
        rw [List.filter_append, List.filter_append, List.filter_append]
        rw [filter_isCreateOrg_nil (createSpacesLoop_no_orgCmd env m.organizations),
            filter_isCreateOrg_nil (createAppsLoop_no_orgCmd env m.organizations),
            filter_isCreateOrg_nil (createServicesLoop_no_orgCmd env m.organizations)]
        rw [List.append_nil, List.append_nil, List.append_nil]
        rw [createOrgsLoop_ok_trace env m.organizations h1]
        refine List.filter_eq_self.mpr (fun c hc => ?_)
        rcases List.mem_map.mp hc with ⟨o, ho, rfl⟩
        rfl
      | err e => simp only [h3] at ha; simp at ha
      | crash => simp only [h3] at ha; simp at ha
    | err e => simp only [h2] at ha; simp at ha
    | crash => simp only [h2] at ha; simp at ha
  | err e => simp only [h1] at ha; simp at ha
  | crash => simp only [h1] at ha; simp at ha

/-- Helper: under a successful teardown run, the trace splits into a prefix
without any `delete-org` — containing the forced deletion call of every
space, application, and service of the manifest — followed by exactly the
`delete-org` calls in manifest order. -/
theorem run_teardown_deleteOrg_order (env : Env) (m : SeederManifest)
    (hc : (SeedPlugin.Run env true m).2.2 = Outcome.ok ()) :
    ∃ t1, (SeedPlugin.Run env true m).2.1
        = t1 ++ m.organizations.map (fun o => Call.cli ["delete-org", o.name, "-f"])
      ∧ (∀ c ∈ t1, isDeleteOrg c = false)
      ∧ ∀ org ∈ m.organizations, ∀ sp ∈ org.spaces,
          (Call.cli ["delete-space", sp.name, "-f"] ∈ t1)
          ∧ (∀ app ∈ sp.apps, Call.cli ["delete", app.name, "-f", "-r"] ∈ t1)
          ∧ (∀ s ∈ sp.services, Call.cli ["delete-service", s.name, "-f"] ∈ t1) := by
  unfold SeedPlugin.Run SeedRepo.deleteApps SeedRepo.deleteServices
    SeedRepo.deleteSpaces SeedRepo.deleteOrganizations at hc ⊢
  simp only [if_true] at hc ⊢
  cases h1 : (deleteAppsLoop env m.organizations).2 with
  | ok a =>
    simp only [h1] at hc ⊢
    cases h2 : (SeedRepo.deleteServicesLoop env m.organizations).2 with
    | ok b =>
      simp only [h2] at hc ⊢
      cases h3 : (SeedRepo.deleteSpacesLoop env m.organizations).2 with
      | ok c =>
        simp only [h3] at hc ⊢
        refine ⟨(deleteAppsLoop env m.organizations).1
            ++ (SeedRepo.deleteServicesLoop env m.organizations).1
            ++ (SeedRepo.deleteSpacesLoop env m.organizations).1, ?_, ?_, ?_⟩
        · rw [deleteOrgsLoop_ok_trace env m.organizations hc]
        · intro c hcmem
          rcases List.mem_append.mp hcmem with hcm | hcm
          · rcases List.mem_append.mp hcm with hcm2 | hcm2
            · exact isDeleteOrg_false_of_orgCmd
                (deleteAppsLoop_no_orgCmd env m.organizations c hcm2)
            · exact isDeleteOrg_false_of_orgCmd
                (deleteServicesLoop_no_orgCmd env m.organizations c hcm2)
          · exact isDeleteOrg_false_of_orgCmd
              (deleteSpacesLoop_no_orgCmd env m.organizations c hcm)
        · intro org horg sp hsp
          refine ⟨?_, ?_, ?_⟩
          · exact List.mem_append_right _
              (deleteSpacesLoop_mem env m.organizations h3 org horg sp hsp)
          · intro app happ
            exact List.mem_append_left _ (List.mem_append_left _
              (deleteAppsLoop_mem env m.organizations h1 org horg sp hsp app happ))
          · intro s hs
            exact List.mem_append_left _ (List.mem_append_right _
              (deleteServicesLoop_mem env m.organizations h2 org horg sp hsp s hs))
      | err e => simp only [h3] at hc; simp at hc
      | crash => simp only [h3] at hc; simp at hc
    | err e => simp only [h2] at hc; simp at hc
    | crash => simp only [h2] at hc; simp at hc
  | err e => simp only [h1] at hc; simp at hc
  | crash => simp only [h1] at hc; simp at hc

/-- C1: for every manifest (and every platform behaviour under which the
runs complete), apply issues the `create-org` commands in exactly the
manifest's declaration order, and teardown's trace is a prefix containing
the deletion commands of every space, application, and service of the
manifest — and no organization deletion — followed by exactly the
`delete-org` commands in manifest order: every `delete-org` is issued only
after all descendant deletion commands. -/
theorem run_org_command_ordering (env : Env) (m : SeederManifest)
    (ha : (SeedPlugin.Run env false m).2.2 = Outcome.ok ())
    (hc : (SeedPlugin.Run env true m).2.2 = Outcome.ok ()) :
    ((SeedPlugin.Run env false m).2.1.filter isCreateOrg
      = m.organizations.map (fun o => Call.cli ["create-org", o.name]))
    ∧ ∃ t1, (SeedPlugin.Run env true m).2.1
        = t1 ++ m.organizations.map (fun o => Call.cli ["delete-org", o.name, "-f"])
      ∧ (∀ c ∈ t1, isDeleteOrg c = false)
      ∧ ∀ org ∈ m.organizations, ∀ sp ∈ org.spaces,
          (Call.cli ["delete-space", sp.name, "-f"] ∈ t1)
          ∧ (∀ app ∈ sp.apps, Call.cli ["delete", app.name, "-f", "-r"] ∈ t1)
          ∧ (∀ s ∈ sp.services, Call.cli ["delete-service", s.name, "-f"] ∈ t1) :=
  ⟨run_apply_createOrg_order env m ha, run_teardown_deleteOrg_order env m hc⟩

theorem run_org_command_ordering_witness :
    (SeedPlugin.Run envOk false mSample).2.2 = Outcome.ok ()
    ∧ (SeedPlugin.Run envOk true mSample).2.2 = Outcome.ok ()
    ∧ (SeedPlugin.Run envOk false mSample).2.1.filter isCreateOrg
        = mSample.organizations.map (fun o => Call.cli ["create-org", o.name]) :=
  ⟨by decide, by decide,
   (run_org_command_ordering envOk mSample (by decide) (by decide)).1⟩
